import Mathlib

/-!
# Shell_GO: a shallow embedding of `cmd/myshell/main.go`

Go strings are modelled as lists of runes (`Str`).  Everything the program writes to
standard output is collected in the `stdout` field of a `Run`; the outcome of a handler
is either a returned exit code, a process termination through `os.Exit`, or a runtime
panic (an out-of-range index).  The filesystem, the home-directory lookup and the process
spawner are fields of `Env`.

The three compiled regular expressions of `Cd` are constant and valid, so the
`err != nil` branches after `regexp.Compile` are dead and are not modelled.
-/

namespace ShellGo

set_option linter.dupNamespace false

/-- A Go string, as its sequence of runes. -/
abbrev Str := List Char

/-- What the program observes of the machine it runs on. -/
structure Env where
  /-- Whether `os.Stat(path)` returns a nil error. -/
  stat : Str → Bool
  /-- Result of `os.UserHomeDir()`: the home directory, or the text of the error. -/
  userHomeDir : Except Str Str
  /-- Running `exec.Command(name, arg)` with the given environment: what the child writes to
  standard output, and whether `cmd.Run()` returned a nil error. -/
  run : Str → Str → List Str → Str × Bool
  /-- For runes from U+0080 on: `unicode.IsLetter(r) || unicode.IsDigit(r)`. -/
  letterOrDigit : Char → Bool

/-- How a handler ends. -/
inductive Outcome where
  /-- The handler returned this exit code to its caller. -/
  | ret (code : Int)
  /-- The process was terminated by `os.Exit(status)`. -/
  | osExit (status : Int)
  /-- A runtime panic (index out of range). -/
  | panic
  deriving DecidableEq, Repr

/-- Observable result of one handler call. -/
structure Run where
  /-- Text written to standard output. -/
  stdout : Str
  /-- Returned code, process exit, or panic. -/
  outcome : Outcome
  /-- Value of `currentDir` after the call. -/
  currentDir : Str
  deriving DecidableEq, Repr

/-- The `Command` struct. -/
structure Command where
  /-- The command. -/
  Command : Str
  /-- Any arguments. -/
  Args : List Str
  deriving DecidableEq, Repr

/-! ## Library functions used by the program -/

/-- The runes `unicode.IsSpace` accepts. -/
def isSpace (c : Char) : Bool :=
  let n := c.toNat
  (9 ≤ n && n ≤ 13) || n == 0x20 || n == 0x85 || n == 0xA0 || n == 0x1680 ||
  (0x2000 ≤ n && n ≤ 0x200A) || n == 0x2028 || n == 0x2029 || n == 0x202F ||
  n == 0x205F || n == 0x3000

/-- Go `strings.TrimSpace`: all leading and trailing white space removed. -/
def TrimSpace (s : Str) : Str :=
  (s.dropWhile isSpace).rdropWhile isSpace

/-- Go `strings.Split(s, sep)` for a one-rune separator: cut at every occurrence of `sep`;
the result always has at least one element. -/
def Split (s : Str) (sep : Char) : List Str :=
  match s with
  | [] => [[]]
  | c :: cs =>
    if c = sep then [] :: Split cs sep
    else
      match Split cs sep with
      | t :: ts => (c :: t) :: ts
      | [] => [[c]]

/-- Go `strings.Join(elems, sep)`. -/
def Join (elems : List Str) (sep : Str) : Str :=
  match elems with
  | [] => []
  | [a] => a
  | a :: b :: rest => a ++ sep ++ Join (b :: rest) sep

/-- The regexp class `\w`: `[0-9A-Za-z_]`. -/
def isWordChar (c : Char) : Bool :=
  c.isAlphanum || c == '_'

/-- Number of matches `FindAllString(path, -1)` returns for the pattern `\.\.`: the
occurrences of `..` found left to right without overlap. -/
def countDot2 (path : Str) : Nat :=
  match path with
  | [] => 0
  | [_] => 0
  | a :: b :: rest =>
    if a = '.' ∧ b = '.' then countDot2 rest + 1 else countDot2 (b :: rest)

/-- Whether the pattern `/\w+$` matches `s` starting at its first rune: a slash followed by
one or more word characters up to the end of the text. -/
def matchBackDir (s : Str) : Bool :=
  match s with
  | [] => false
  | c :: w => c == '/' && !w.isEmpty && w.all isWordChar

/-- The call `reBackDir.ReplaceAllString(s, "")` for the pattern `/\w+$`: the leftmost
position where the pattern matches is searched, and the match, which reaches the end of
the text, is replaced by the empty string. -/
def stripBackDir (s : Str) : Str :=
  match s with
  | [] => []
  | c :: cs => if matchBackDir (c :: cs) then [] else c :: stripBackDir cs

/-- The runes from U+0080 on that are letters (general category L) or decimal digits
(general category Nd), as closed ranges, from the Unicode Character Database 14.0.0; Go's
`unicode.Letter` and `unicode.Digit` tables are these categories. -/
def letterDigitRanges : List (Nat × Nat) :=
  [(0xAA, 0xAA), (0xB5, 0xB5), (0xBA, 0xBA), (0xC0, 0xD6), (0xD8, 0xF6), (0xF8, 0x2C1),
   (0x2C6, 0x2D1), (0x2E0, 0x2E4), (0x2EC, 0x2EC), (0x2EE, 0x2EE), (0x370, 0x374), (0x376, 0x377),
   (0x37A, 0x37D), (0x37F, 0x37F), (0x386, 0x386), (0x388, 0x38A), (0x38C, 0x38C), (0x38E, 0x3A1),
   (0x3A3, 0x3F5), (0x3F7, 0x481), (0x48A, 0x52F), (0x531, 0x556), (0x559, 0x559), (0x560, 0x588),
   (0x5D0, 0x5EA), (0x5EF, 0x5F2), (0x620, 0x64A), (0x660, 0x669), (0x66E, 0x66F), (0x671, 0x6D3),
   (0x6D5, 0x6D5), (0x6E5, 0x6E6), (0x6EE, 0x6FC), (0x6FF, 0x6FF), (0x710, 0x710), (0x712, 0x72F),
   (0x74D, 0x7A5), (0x7B1, 0x7B1), (0x7C0, 0x7EA), (0x7F4, 0x7F5), (0x7FA, 0x7FA), (0x800, 0x815),
   (0x81A, 0x81A), (0x824, 0x824), (0x828, 0x828), (0x840, 0x858), (0x860, 0x86A), (0x870, 0x887),
   (0x889, 0x88E), (0x8A0, 0x8C9), (0x904, 0x939), (0x93D, 0x93D), (0x950, 0x950), (0x958, 0x961),
   (0x966, 0x96F), (0x971, 0x980), (0x985, 0x98C), (0x98F, 0x990), (0x993, 0x9A8), (0x9AA, 0x9B0),
   (0x9B2, 0x9B2), (0x9B6, 0x9B9), (0x9BD, 0x9BD), (0x9CE, 0x9CE), (0x9DC, 0x9DD), (0x9DF, 0x9E1),
   (0x9E6, 0x9F1), (0x9FC, 0x9FC), (0xA05, 0xA0A), (0xA0F, 0xA10), (0xA13, 0xA28), (0xA2A, 0xA30),
   (0xA32, 0xA33), (0xA35, 0xA36), (0xA38, 0xA39), (0xA59, 0xA5C), (0xA5E, 0xA5E), (0xA66, 0xA6F),
   (0xA72, 0xA74), (0xA85, 0xA8D), (0xA8F, 0xA91), (0xA93, 0xAA8), (0xAAA, 0xAB0), (0xAB2, 0xAB3),
   (0xAB5, 0xAB9), (0xABD, 0xABD), (0xAD0, 0xAD0), (0xAE0, 0xAE1), (0xAE6, 0xAEF), (0xAF9, 0xAF9),
   (0xB05, 0xB0C), (0xB0F, 0xB10), (0xB13, 0xB28), (0xB2A, 0xB30), (0xB32, 0xB33), (0xB35, 0xB39),
   (0xB3D, 0xB3D), (0xB5C, 0xB5D), (0xB5F, 0xB61), (0xB66, 0xB6F), (0xB71, 0xB71), (0xB83, 0xB83),
   (0xB85, 0xB8A), (0xB8E, 0xB90), (0xB92, 0xB95), (0xB99, 0xB9A), (0xB9C, 0xB9C), (0xB9E, 0xB9F),
   (0xBA3, 0xBA4), (0xBA8, 0xBAA), (0xBAE, 0xBB9), (0xBD0, 0xBD0), (0xBE6, 0xBEF), (0xC05, 0xC0C),
   (0xC0E, 0xC10), (0xC12, 0xC28), (0xC2A, 0xC39), (0xC3D, 0xC3D), (0xC58, 0xC5A), (0xC5D, 0xC5D),
   (0xC60, 0xC61), (0xC66, 0xC6F), (0xC80, 0xC80), (0xC85, 0xC8C), (0xC8E, 0xC90), (0xC92, 0xCA8),
   (0xCAA, 0xCB3), (0xCB5, 0xCB9), (0xCBD, 0xCBD), (0xCDD, 0xCDE), (0xCE0, 0xCE1), (0xCE6, 0xCEF),
   (0xCF1, 0xCF2), (0xD04, 0xD0C), (0xD0E, 0xD10), (0xD12, 0xD3A), (0xD3D, 0xD3D), (0xD4E, 0xD4E),
   (0xD54, 0xD56), (0xD5F, 0xD61), (0xD66, 0xD6F), (0xD7A, 0xD7F), (0xD85, 0xD96), (0xD9A, 0xDB1),
   (0xDB3, 0xDBB), (0xDBD, 0xDBD), (0xDC0, 0xDC6), (0xDE6, 0xDEF), (0xE01, 0xE30), (0xE32, 0xE33),
   (0xE40, 0xE46), (0xE50, 0xE59), (0xE81, 0xE82), (0xE84, 0xE84), (0xE86, 0xE8A), (0xE8C, 0xEA3),
   (0xEA5, 0xEA5), (0xEA7, 0xEB0), (0xEB2, 0xEB3), (0xEBD, 0xEBD), (0xEC0, 0xEC4), (0xEC6, 0xEC6),
   (0xED0, 0xED9), (0xEDC, 0xEDF), (0xF00, 0xF00), (0xF20, 0xF29), (0xF40, 0xF47), (0xF49, 0xF6C),
   (0xF88, 0xF8C), (0x1000, 0x102A), (0x103F, 0x1049), (0x1050, 0x1055), (0x105A, 0x105D),
   (0x1061, 0x1061), (0x1065, 0x1066), (0x106E, 0x1070), (0x1075, 0x1081), (0x108E, 0x108E),
   (0x1090, 0x1099), (0x10A0, 0x10C5), (0x10C7, 0x10C7), (0x10CD, 0x10CD), (0x10D0, 0x10FA),
   (0x10FC, 0x1248), (0x124A, 0x124D), (0x1250, 0x1256), (0x1258, 0x1258), (0x125A, 0x125D),
   (0x1260, 0x1288), (0x128A, 0x128D), (0x1290, 0x12B0), (0x12B2, 0x12B5), (0x12B8, 0x12BE),
   (0x12C0, 0x12C0), (0x12C2, 0x12C5), (0x12C8, 0x12D6), (0x12D8, 0x1310), (0x1312, 0x1315),
   (0x1318, 0x135A), (0x1380, 0x138F), (0x13A0, 0x13F5), (0x13F8, 0x13FD), (0x1401, 0x166C),
   (0x166F, 0x167F), (0x1681, 0x169A), (0x16A0, 0x16EA), (0x16F1, 0x16F8), (0x1700, 0x1711),
   (0x171F, 0x1731), (0x1740, 0x1751), (0x1760, 0x176C), (0x176E, 0x1770), (0x1780, 0x17B3),
   (0x17D7, 0x17D7), (0x17DC, 0x17DC), (0x17E0, 0x17E9), (0x1810, 0x1819), (0x1820, 0x1878),
   (0x1880, 0x1884), (0x1887, 0x18A8), (0x18AA, 0x18AA), (0x18B0, 0x18F5), (0x1900, 0x191E),
   (0x1946, 0x196D), (0x1970, 0x1974), (0x1980, 0x19AB), (0x19B0, 0x19C9), (0x19D0, 0x19D9),
   (0x1A00, 0x1A16), (0x1A20, 0x1A54), (0x1A80, 0x1A89), (0x1A90, 0x1A99), (0x1AA7, 0x1AA7),
   (0x1B05, 0x1B33), (0x1B45, 0x1B4C), (0x1B50, 0x1B59), (0x1B83, 0x1BA0), (0x1BAE, 0x1BE5),
   (0x1C00, 0x1C23), (0x1C40, 0x1C49), (0x1C4D, 0x1C7D), (0x1C80, 0x1C88), (0x1C90, 0x1CBA),
   (0x1CBD, 0x1CBF), (0x1CE9, 0x1CEC), (0x1CEE, 0x1CF3), (0x1CF5, 0x1CF6), (0x1CFA, 0x1CFA),
   (0x1D00, 0x1DBF), (0x1E00, 0x1F15), (0x1F18, 0x1F1D), (0x1F20, 0x1F45), (0x1F48, 0x1F4D),
   (0x1F50, 0x1F57), (0x1F59, 0x1F59), (0x1F5B, 0x1F5B), (0x1F5D, 0x1F5D), (0x1F5F, 0x1F7D),
   (0x1F80, 0x1FB4), (0x1FB6, 0x1FBC), (0x1FBE, 0x1FBE), (0x1FC2, 0x1FC4), (0x1FC6, 0x1FCC),
   (0x1FD0, 0x1FD3), (0x1FD6, 0x1FDB), (0x1FE0, 0x1FEC), (0x1FF2, 0x1FF4), (0x1FF6, 0x1FFC),
   (0x2071, 0x2071), (0x207F, 0x207F), (0x2090, 0x209C), (0x2102, 0x2102), (0x2107, 0x2107),
   (0x210A, 0x2113), (0x2115, 0x2115), (0x2119, 0x211D), (0x2124, 0x2124), (0x2126, 0x2126),
   (0x2128, 0x2128), (0x212A, 0x212D), (0x212F, 0x2139), (0x213C, 0x213F), (0x2145, 0x2149),
   (0x214E, 0x214E), (0x2183, 0x2184), (0x2C00, 0x2CE4), (0x2CEB, 0x2CEE), (0x2CF2, 0x2CF3),
   (0x2D00, 0x2D25), (0x2D27, 0x2D27), (0x2D2D, 0x2D2D), (0x2D30, 0x2D67), (0x2D6F, 0x2D6F),
   (0x2D80, 0x2D96), (0x2DA0, 0x2DA6), (0x2DA8, 0x2DAE), (0x2DB0, 0x2DB6), (0x2DB8, 0x2DBE),
   (0x2DC0, 0x2DC6), (0x2DC8, 0x2DCE), (0x2DD0, 0x2DD6), (0x2DD8, 0x2DDE), (0x2E2F, 0x2E2F),
   (0x3005, 0x3006), (0x3031, 0x3035), (0x303B, 0x303C), (0x3041, 0x3096), (0x309D, 0x309F),
   (0x30A1, 0x30FA), (0x30FC, 0x30FF), (0x3105, 0x312F), (0x3131, 0x318E), (0x31A0, 0x31BF),
   (0x31F0, 0x31FF), (0x3400, 0x4DBF), (0x4E00, 0xA48C), (0xA4D0, 0xA4FD), (0xA500, 0xA60C),
   (0xA610, 0xA62B), (0xA640, 0xA66E), (0xA67F, 0xA69D), (0xA6A0, 0xA6E5), (0xA717, 0xA71F),
   (0xA722, 0xA788), (0xA78B, 0xA7CA), (0xA7D0, 0xA7D1), (0xA7D3, 0xA7D3), (0xA7D5, 0xA7D9),
   (0xA7F2, 0xA801), (0xA803, 0xA805), (0xA807, 0xA80A), (0xA80C, 0xA822), (0xA840, 0xA873),
   (0xA882, 0xA8B3), (0xA8D0, 0xA8D9), (0xA8F2, 0xA8F7), (0xA8FB, 0xA8FB), (0xA8FD, 0xA8FE),
   (0xA900, 0xA925), (0xA930, 0xA946), (0xA960, 0xA97C), (0xA984, 0xA9B2), (0xA9CF, 0xA9D9),
   (0xA9E0, 0xA9E4), (0xA9E6, 0xA9FE), (0xAA00, 0xAA28), (0xAA40, 0xAA42), (0xAA44, 0xAA4B),
   (0xAA50, 0xAA59), (0xAA60, 0xAA76), (0xAA7A, 0xAA7A), (0xAA7E, 0xAAAF), (0xAAB1, 0xAAB1),
   (0xAAB5, 0xAAB6), (0xAAB9, 0xAABD), (0xAAC0, 0xAAC0), (0xAAC2, 0xAAC2), (0xAADB, 0xAADD),
   (0xAAE0, 0xAAEA), (0xAAF2, 0xAAF4), (0xAB01, 0xAB06), (0xAB09, 0xAB0E), (0xAB11, 0xAB16),
   (0xAB20, 0xAB26), (0xAB28, 0xAB2E), (0xAB30, 0xAB5A), (0xAB5C, 0xAB69), (0xAB70, 0xABE2),
   (0xABF0, 0xABF9), (0xAC00, 0xD7A3), (0xD7B0, 0xD7C6), (0xD7CB, 0xD7FB), (0xF900, 0xFA6D),
   (0xFA70, 0xFAD9), (0xFB00, 0xFB06), (0xFB13, 0xFB17), (0xFB1D, 0xFB1D), (0xFB1F, 0xFB28),
   (0xFB2A, 0xFB36), (0xFB38, 0xFB3C), (0xFB3E, 0xFB3E), (0xFB40, 0xFB41), (0xFB43, 0xFB44),
   (0xFB46, 0xFBB1), (0xFBD3, 0xFD3D), (0xFD50, 0xFD8F), (0xFD92, 0xFDC7), (0xFDF0, 0xFDFB),
   (0xFE70, 0xFE74), (0xFE76, 0xFEFC), (0xFF10, 0xFF19), (0xFF21, 0xFF3A), (0xFF41, 0xFF5A),
   (0xFF66, 0xFFBE), (0xFFC2, 0xFFC7), (0xFFCA, 0xFFCF), (0xFFD2, 0xFFD7), (0xFFDA, 0xFFDC),
   (0x10000, 0x1000B), (0x1000D, 0x10026), (0x10028, 0x1003A), (0x1003C, 0x1003D),
   (0x1003F, 0x1004D), (0x10050, 0x1005D), (0x10080, 0x100FA), (0x10280, 0x1029C),
   (0x102A0, 0x102D0), (0x10300, 0x1031F), (0x1032D, 0x10340), (0x10342, 0x10349),
   (0x10350, 0x10375), (0x10380, 0x1039D), (0x103A0, 0x103C3), (0x103C8, 0x103CF),
   (0x10400, 0x1049D), (0x104A0, 0x104A9), (0x104B0, 0x104D3), (0x104D8, 0x104FB),
   (0x10500, 0x10527), (0x10530, 0x10563), (0x10570, 0x1057A), (0x1057C, 0x1058A),
   (0x1058C, 0x10592), (0x10594, 0x10595), (0x10597, 0x105A1), (0x105A3, 0x105B1),
   (0x105B3, 0x105B9), (0x105BB, 0x105BC), (0x10600, 0x10736), (0x10740, 0x10755),
   (0x10760, 0x10767), (0x10780, 0x10785), (0x10787, 0x107B0), (0x107B2, 0x107BA),
   (0x10800, 0x10805), (0x10808, 0x10808), (0x1080A, 0x10835), (0x10837, 0x10838),
   (0x1083C, 0x1083C), (0x1083F, 0x10855), (0x10860, 0x10876), (0x10880, 0x1089E),
   (0x108E0, 0x108F2), (0x108F4, 0x108F5), (0x10900, 0x10915), (0x10920, 0x10939),
   (0x10980, 0x109B7), (0x109BE, 0x109BF), (0x10A00, 0x10A00), (0x10A10, 0x10A13),
   (0x10A15, 0x10A17), (0x10A19, 0x10A35), (0x10A60, 0x10A7C), (0x10A80, 0x10A9C),
   (0x10AC0, 0x10AC7), (0x10AC9, 0x10AE4), (0x10B00, 0x10B35), (0x10B40, 0x10B55),
   (0x10B60, 0x10B72), (0x10B80, 0x10B91), (0x10C00, 0x10C48), (0x10C80, 0x10CB2),
   (0x10CC0, 0x10CF2), (0x10D00, 0x10D23), (0x10D30, 0x10D39), (0x10E80, 0x10EA9),
   (0x10EB0, 0x10EB1), (0x10F00, 0x10F1C), (0x10F27, 0x10F27), (0x10F30, 0x10F45),
   (0x10F70, 0x10F81), (0x10FB0, 0x10FC4), (0x10FE0, 0x10FF6), (0x11003, 0x11037),
   (0x11066, 0x1106F), (0x11071, 0x11072), (0x11075, 0x11075), (0x11083, 0x110AF),
   (0x110D0, 0x110E8), (0x110F0, 0x110F9), (0x11103, 0x11126), (0x11136, 0x1113F),
   (0x11144, 0x11144), (0x11147, 0x11147), (0x11150, 0x11172), (0x11176, 0x11176),
   (0x11183, 0x111B2), (0x111C1, 0x111C4), (0x111D0, 0x111DA), (0x111DC, 0x111DC),
   (0x11200, 0x11211), (0x11213, 0x1122B), (0x11280, 0x11286), (0x11288, 0x11288),
   (0x1128A, 0x1128D), (0x1128F, 0x1129D), (0x1129F, 0x112A8), (0x112B0, 0x112DE),
   (0x112F0, 0x112F9), (0x11305, 0x1130C), (0x1130F, 0x11310), (0x11313, 0x11328),
   (0x1132A, 0x11330), (0x11332, 0x11333), (0x11335, 0x11339), (0x1133D, 0x1133D),
   (0x11350, 0x11350), (0x1135D, 0x11361), (0x11400, 0x11434), (0x11447, 0x1144A),
   (0x11450, 0x11459), (0x1145F, 0x11461), (0x11480, 0x114AF), (0x114C4, 0x114C5),
   (0x114C7, 0x114C7), (0x114D0, 0x114D9), (0x11580, 0x115AE), (0x115D8, 0x115DB),
   (0x11600, 0x1162F), (0x11644, 0x11644), (0x11650, 0x11659), (0x11680, 0x116AA),
   (0x116B8, 0x116B8), (0x116C0, 0x116C9), (0x11700, 0x1171A), (0x11730, 0x11739),
   (0x11740, 0x11746), (0x11800, 0x1182B), (0x118A0, 0x118E9), (0x118FF, 0x11906),
   (0x11909, 0x11909), (0x1190C, 0x11913), (0x11915, 0x11916), (0x11918, 0x1192F),
   (0x1193F, 0x1193F), (0x11941, 0x11941), (0x11950, 0x11959), (0x119A0, 0x119A7),
   (0x119AA, 0x119D0), (0x119E1, 0x119E1), (0x119E3, 0x119E3), (0x11A00, 0x11A00),
   (0x11A0B, 0x11A32), (0x11A3A, 0x11A3A), (0x11A50, 0x11A50), (0x11A5C, 0x11A89),
   (0x11A9D, 0x11A9D), (0x11AB0, 0x11AF8), (0x11C00, 0x11C08), (0x11C0A, 0x11C2E),
   (0x11C40, 0x11C40), (0x11C50, 0x11C59), (0x11C72, 0x11C8F), (0x11D00, 0x11D06),
   (0x11D08, 0x11D09), (0x11D0B, 0x11D30), (0x11D46, 0x11D46), (0x11D50, 0x11D59),
   (0x11D60, 0x11D65), (0x11D67, 0x11D68), (0x11D6A, 0x11D89), (0x11D98, 0x11D98),
   (0x11DA0, 0x11DA9), (0x11EE0, 0x11EF2), (0x11FB0, 0x11FB0), (0x12000, 0x12399),
   (0x12480, 0x12543), (0x12F90, 0x12FF0), (0x13000, 0x1342E), (0x14400, 0x14646),
   (0x16800, 0x16A38), (0x16A40, 0x16A5E), (0x16A60, 0x16A69), (0x16A70, 0x16ABE),
   (0x16AC0, 0x16AC9), (0x16AD0, 0x16AED), (0x16B00, 0x16B2F), (0x16B40, 0x16B43),
   (0x16B50, 0x16B59), (0x16B63, 0x16B77), (0x16B7D, 0x16B8F), (0x16E40, 0x16E7F),
   (0x16F00, 0x16F4A), (0x16F50, 0x16F50), (0x16F93, 0x16F9F), (0x16FE0, 0x16FE1),
   (0x16FE3, 0x16FE3), (0x17000, 0x187F7), (0x18800, 0x18CD5), (0x18D00, 0x18D08),
   (0x1AFF0, 0x1AFF3), (0x1AFF5, 0x1AFFB), (0x1AFFD, 0x1AFFE), (0x1B000, 0x1B122),
   (0x1B150, 0x1B152), (0x1B164, 0x1B167), (0x1B170, 0x1B2FB), (0x1BC00, 0x1BC6A),
   (0x1BC70, 0x1BC7C), (0x1BC80, 0x1BC88), (0x1BC90, 0x1BC99), (0x1D400, 0x1D454),
   (0x1D456, 0x1D49C), (0x1D49E, 0x1D49F), (0x1D4A2, 0x1D4A2), (0x1D4A5, 0x1D4A6),
   (0x1D4A9, 0x1D4AC), (0x1D4AE, 0x1D4B9), (0x1D4BB, 0x1D4BB), (0x1D4BD, 0x1D4C3),
   (0x1D4C5, 0x1D505), (0x1D507, 0x1D50A), (0x1D50D, 0x1D514), (0x1D516, 0x1D51C),
   (0x1D51E, 0x1D539), (0x1D53B, 0x1D53E), (0x1D540, 0x1D544), (0x1D546, 0x1D546),
   (0x1D54A, 0x1D550), (0x1D552, 0x1D6A5), (0x1D6A8, 0x1D6C0), (0x1D6C2, 0x1D6DA),
   (0x1D6DC, 0x1D6FA), (0x1D6FC, 0x1D714), (0x1D716, 0x1D734), (0x1D736, 0x1D74E),
   (0x1D750, 0x1D76E), (0x1D770, 0x1D788), (0x1D78A, 0x1D7A8), (0x1D7AA, 0x1D7C2),
   (0x1D7C4, 0x1D7CB), (0x1D7CE, 0x1D7FF), (0x1DF00, 0x1DF1E), (0x1E100, 0x1E12C),
   (0x1E137, 0x1E13D), (0x1E140, 0x1E149), (0x1E14E, 0x1E14E), (0x1E290, 0x1E2AD),
   (0x1E2C0, 0x1E2EB), (0x1E2F0, 0x1E2F9), (0x1E7E0, 0x1E7E6), (0x1E7E8, 0x1E7EB),
   (0x1E7ED, 0x1E7EE), (0x1E7F0, 0x1E7FE), (0x1E800, 0x1E8C4), (0x1E900, 0x1E943),
   (0x1E94B, 0x1E94B), (0x1E950, 0x1E959), (0x1EE00, 0x1EE03), (0x1EE05, 0x1EE1F),
   (0x1EE21, 0x1EE22), (0x1EE24, 0x1EE24), (0x1EE27, 0x1EE27), (0x1EE29, 0x1EE32),
   (0x1EE34, 0x1EE37), (0x1EE39, 0x1EE39), (0x1EE3B, 0x1EE3B), (0x1EE42, 0x1EE42),
   (0x1EE47, 0x1EE47), (0x1EE49, 0x1EE49), (0x1EE4B, 0x1EE4B), (0x1EE4D, 0x1EE4F),
   (0x1EE51, 0x1EE52), (0x1EE54, 0x1EE54), (0x1EE57, 0x1EE57), (0x1EE59, 0x1EE59),
   (0x1EE5B, 0x1EE5B), (0x1EE5D, 0x1EE5D), (0x1EE5F, 0x1EE5F), (0x1EE61, 0x1EE62),
   (0x1EE64, 0x1EE64), (0x1EE67, 0x1EE6A), (0x1EE6C, 0x1EE72), (0x1EE74, 0x1EE77),
   (0x1EE79, 0x1EE7C), (0x1EE7E, 0x1EE7E), (0x1EE80, 0x1EE89), (0x1EE8B, 0x1EE9B),
   (0x1EEA1, 0x1EEA3), (0x1EEA5, 0x1EEA9), (0x1EEAB, 0x1EEBB), (0x1FBF0, 0x1FBF9),
   (0x20000, 0x2A6DF), (0x2A700, 0x2B738), (0x2B740, 0x2B81D), (0x2B820, 0x2CEA1),
   (0x2CEB0, 0x2EBE0), (0x2F800, 0x2FA1D), (0x30000, 0x3134A)]

/-- For a rune from U+0080 on: `unicode.IsLetter(r) || unicode.IsDigit(r)`. -/
def unicodeLetterOrDigit (c : Char) : Bool :=
  letterDigitRanges.any (fun r => r.1 ≤ c.toNat && c.toNat ≤ r.2)

/-- Runes allowed in a template variable name by `regexp`'s `extract`. -/
def isNameRune (env : Env) (c : Char) : Bool :=
  if c.toNat < 0x80 then c.isAlphanum || c == '_' else env.letterOrDigit c

/-- The number `extract` computes from a variable name: its decimal value when the name is
made of ASCII digits only, is below the cut-off, and has no leading zero; `-1` otherwise. -/
def extractNum (name : Str) : Int :=
  let num : Int := name.foldl
    (fun (acc : Int) c => if acc < 0 then -1
      else if c.toNat < 48 || 57 < c.toNat || acc ≥ 100000000 then -1
      else acc * 10 + ((c.toNat : Int) - 48)) 0
  if name.head? = some '0' && decide (1 < name.length) then -1 else num

/-- Go `regexp`'s `extract`: the variable at the head of `str` (the text after a `$`), as
`name`, `num`, `rest`; `none` when there is no well-formed variable. -/
def extract (env : Env) (str : Str) : Option (Str × Int × Str) :=
  match str with
  | [] => none
  | c :: cs =>
    let brace := c == '\x7b'
    let body := if brace then cs else c :: cs
    let name := body.takeWhile (isNameRune env)
    let after := body.dropWhile (isNameRune env)
    if name.isEmpty then none
    else if brace && after.head? != some '\x7d' then none
    else some (name, extractNum name, if brace then after.tail else after)

/-- Loop of Go `regexp`'s `expand` for a pattern without capture groups; `m` is the text of
the whole match, the only submatch there is. One unit of fuel is used per `$` handled. -/
def expandLoop (env : Env) (m : Str) (fuel : Nat) (template : Str) : Str :=
  match fuel with
  | 0 => template
  | fuel + 1 =>
    let before := template.takeWhile (· != '$')
    match template.dropWhile (· != '$') with
    | [] => template
    | _ :: after =>
      if after.head? = some '$' then before ++ '$' :: expandLoop env m fuel after.tail
      else
        match extract env after with
        | none => before ++ '$' :: expandLoop env m fuel after
        | some (_, num, rest) =>
          before ++ (if num = 0 then m else []) ++ expandLoop env m fuel rest

/-- Go `regexp`'s `expand`: the replacement text a template stands for. -/
def expand (env : Env) (m : Str) (template : Str) : Str :=
  expandLoop env m (template.length + 1) template

/-! ## The program -/

/-- `newCommand`: the loop over `in` with its index. -/
def newCommand (inp : List Str) : Command :=
  let r := inp.enum.foldl
    (fun (acc : Str × List Str) (p : Nat × Str) =>
      if p.1 = 0 then (p.2, acc.2) else (acc.1, acc.2 ++ [p.2]))
    (([] : Str), ([] : List Str))
  ⟨r.1, r.2⟩

/-- `Command.Exit`. -/
def Exit (args : List Str) (currentDir : Str) : Run :=
  match args with
  | a :: _ =>
    if a = "0".toList then ⟨[], .osExit 0, currentDir⟩
    else if a = "1".toList then ⟨[], .osExit 1, currentDir⟩
    else ⟨"Command format error, usage: exit <0|1>\n".toList, .ret 1, currentDir⟩
  | [] => ⟨"Command format error, usage: exit <0|1>\n".toList, .ret 1, currentDir⟩

/-- `Stringify`. -/
def Stringify (inp : List Str) : Str :=
  TrimSpace (inp.foldl (fun text arg => text ++ (arg ++ " ".toList)) [])

/-- `Command.Echo`. -/
def Echo (args : List Str) (currentDir : Str) : Run :=
  ⟨Stringify args ++ "\n".toList, .ret 0, currentDir⟩

/-- `Command.Pwd`. -/
def Pwd (d : Str) : Run :=
  ⟨d ++ "\n".toList, .ret 0, d⟩

/-- The loop `for i := 0; i < dot2MatchesLength; i++ { lCurrentDir = ... }` of `Cd`. -/
def backLoop (n : Nat) (lCurrentDir : Str) : Str :=
  match n with
  | 0 => lCurrentDir
  | n + 1 => backLoop n (stripBackDir lCurrentDir)

/-- `Command.Cd`, first part: `path` after the `..` and `.` handling. -/
def cdDots (env : Env) (path : Str) (currentDir : Str) : Str :=
  let dot2MatchesLength := countDot2 path
  if dot2MatchesLength > 0 then
    backLoop dot2MatchesLength currentDir
  else
    match path with
    | [] => path
    | c :: rest => if c = '.' then expand env ".".toList currentDir ++ rest else path

/-- `Command.Cd`, second part: `path` after the `~` handling, or the text of the error
`os.UserHomeDir` returned. -/
def cdHome (env : Env) (path : Str) : Except Str Str :=
  match path with
  | [] => .ok path
  | c :: rest =>
    if c = '~' then
      match env.userHomeDir with
      | .error err => .error err
      | .ok home => .ok (expand env "~".toList home ++ rest)
    else .ok path

/-- `Command.Cd`. -/
def Cd (env : Env) (args : List Str) (currentDir : Str) : Run :=
  match args with
  | [] => ⟨[], .panic, currentDir⟩
  | arg0 :: _ =>
    match cdHome env (cdDots env arg0 currentDir) with
    | .error err => ⟨err, .ret 1, currentDir⟩
    | .ok path =>
      if env.stat path then ⟨[], .ret 0, path⟩
      else ⟨"cd: ".toList ++ path ++ ": No such file or directory\n".toList, .ret 1, currentDir⟩

/-- The search loop of `Command.Type`: the first `paths[i]/arg` that exists. -/
def typeSearch (env : Env) (arg : Str) (paths : List Str) : Option Str :=
  match paths with
  | [] => none
  | p :: ps =>
    let path := p ++ "/".toList ++ arg
    if env.stat path then some path else typeSearch env arg ps

/-- `Command.Type`. -/
def «Type» (env : Env) (args : List Str) (paths : List Str) (currentDir : Str) : Run :=
  match args with
  | arg :: _ =>
    if arg = "type".toList ∨ arg = "echo".toList ∨ arg = "exit".toList then
      ⟨arg ++ " is a shell builtin\n".toList, .ret 0, currentDir⟩
    else
      match typeSearch env arg paths with
      | some path => ⟨arg ++ " is ".toList ++ path ++ "\n".toList, .ret 0, currentDir⟩
      | none => ⟨arg ++ " not found\n".toList, .ret 0, currentDir⟩
  | [] => ⟨"Command format error, usage: type <command>\n".toList, .ret 1, currentDir⟩

/-- `Command.Exec`. -/
def Exec (env : Env) (c : Command) (paths : List Str) (currentDir : Str) : Run :=
  let r := env.run c.Command (Join c.Args " ".toList) paths
  if r.2 then ⟨r.1, .ret 0, currentDir⟩
  else ⟨r.1 ++ (c.Command ++ ": command not found\n".toList), .ret 1, currentDir⟩

/-- `handleInput`. -/
def handleInput (env : Env) (c : Command) (paths : List Str) (currentDir : Str) : Run :=
  if c.Command = "exit".toList then Exit c.Args currentDir
  else if c.Command = "echo".toList then Echo c.Args currentDir
  else if c.Command = "type".toList then «Type» env c.Args paths currentDir
  else if c.Command = "pwd".toList then Pwd currentDir
  else if c.Command = "cd".toList then Cd env c.Args currentDir
  else Exec env c paths currentDir

/-- `parseInput`. -/
def parseInput (inp : Str) : List Str :=
  Split (TrimSpace inp) ' '

/-- What one pass through the body of the `for` loop of `main` leaves behind. -/
structure Iteration where
  /-- Text written to standard output during the pass. -/
  stdout : Str
  /-- Why the loop stopped in this pass (`os.Exit` or a panic), or `none` when it goes on. -/
  stopped : Option Outcome
  /-- Value of the variable `path` of `main` after the pass. -/
  path : List Str
  /-- Value of the variable `currentDir` of `main` after the pass. -/
  currentDir : Str
  deriving DecidableEq, Repr

/-- The body of the `for` loop of `main`; `input` is what `readInput` returned, the line or
the text of the error. -/
def mainIteration (env : Env) (path : List Str) (currentDir : Str)
    (input : Except Str Str) : Iteration :=
  match input with
  | .error err => ⟨"$ ".toList ++ err, none, path, currentDir⟩
  | .ok line =>
    let parsedInput := parseInput line
    let command := newCommand parsedInput
    let r := handleInput env command path currentDir
    match r.outcome with
    | .ret exitCode =>
      if exitCode = 0 then ⟨"$ ".toList ++ r.stdout, none, path, r.currentDir⟩
      else if exitCode = 1 then ⟨"$ ".toList ++ r.stdout, none, path, r.currentDir⟩
      else if exitCode = 2 then
        match parsedInput with
        | first :: _ =>
          ⟨"$ ".toList ++ r.stdout ++ (first ++ ": command not found\n".toList), none, path,
            r.currentDir⟩
        | [] => ⟨"$ ".toList ++ r.stdout, some .panic, path, r.currentDir⟩
      else ⟨"$ ".toList ++ r.stdout, none, path, r.currentDir⟩
    | stop => ⟨"$ ".toList ++ r.stdout, some stop, path, r.currentDir⟩

/-! ## Sample environments -/

/-- An environment whose filesystem holds exactly the listed paths, where `os.UserHomeDir`
gives `home` and where no external command can be run. -/
def envOf (files : List Str) (home : Except Str Str) : Env where
  stat := fun p => decide (p ∈ files)
  userHomeDir := home
  run := fun _ _ _ => ([], false)
  letterOrDigit := unicodeLetterOrDigit

/-- The strip the specification describes: the text from the last `/` on is removed,
whatever runes follow that slash; a text without a slash is left as it is. -/
def dropLastSegment (s : Str) : Str :=
  if '/' ∈ s then ((s.reverse.dropWhile (· != '/')).drop 1).reverse else s

/-- The directory `/w1/w2/.../wn` made of the given segments. -/
def segmentsPath (segs : List Str) : Str :=
  segs.foldr (fun w acc => '/' :: w ++ acc) []

/-- Whether a command name is one `handleInput` has a case for. -/
def isBuiltin (name : Str) : Bool :=
  name = "exit".toList || name = "echo".toList || name = "type".toList ||
  name = "pwd".toList || name = "cd".toList

/-! ## Lemmas on the library functions -/

theorem rdropWhile_cons_eq (p : Char → Bool) (c : Char) (cs : Str) :
    List.rdropWhile p (c :: cs) =
      if List.rdropWhile p cs = [] then (if p c then [] else [c])
      else c :: List.rdropWhile p cs := by
  induction cs using List.reverseRecOn with
  | nil => simp [List.rdropWhile_singleton]
  | append_singleton l x ih =>
    rw [← List.cons_append, List.rdropWhile_concat, List.rdropWhile_concat]
    by_cases hx : p x = true
    · simp only [hx, if_true]; exact ih
    · simp [hx]

theorem rdropWhile_append_keep (p : Char → Bool) (a b : Str)
    (h : List.rdropWhile p b ≠ []) :
    List.rdropWhile p (a ++ b) = a ++ List.rdropWhile p b := by
  induction a with
  | nil => rfl
  | cons c a ih =>
    rw [List.cons_append, rdropWhile_cons_eq, ih]
    simp [h]

theorem rdropWhile_append_all (p : Char → Bool) (a b : Str)
    (h : ∀ x ∈ b, p x = true) :
    List.rdropWhile p (a ++ b) = List.rdropWhile p a := by
  induction b using List.reverseRecOn with
  | nil => simp
  | append_singleton l x ih =>
    rw [← List.append_assoc, List.rdropWhile_concat_pos _ _ _ (h x (by simp))]
    exact ih (fun y hy => h y (by simp [hy]))

theorem dropWhile_rdropWhile_comm (p : Char → Bool) (l : Str) :
    List.dropWhile p (List.rdropWhile p l) = List.rdropWhile p (List.dropWhile p l) := by
  induction l with
  | nil => simp
  | cons c cs ih =>
    rw [rdropWhile_cons_eq]
    by_cases hc : p c = true
    · by_cases hn : List.rdropWhile p cs = []
      · have hall : ∀ x ∈ cs, p x = true := List.rdropWhile_eq_nil_iff.mp hn
        have hd : List.dropWhile p cs = [] := List.dropWhile_eq_nil_iff.mpr hall
        simp [hc, hn, List.dropWhile_cons, hd]
      · simp [hc, hn, List.dropWhile_cons, ih]
    · by_cases hn : List.rdropWhile p cs = []
      · simp [hc, hn, List.dropWhile_cons, rdropWhile_cons_eq]
      · simp [hc, hn, List.dropWhile_cons, rdropWhile_cons_eq]

theorem TrimSpace_nil : TrimSpace [] = [] := by
  simp [TrimSpace]

theorem TrimSpace_eq_nil_iff (s : Str) : TrimSpace s = [] ↔ ∀ c ∈ s, isSpace c = true := by
  unfold TrimSpace
  rw [List.rdropWhile_eq_nil_iff]
  constructor
  · intro h c hc
    by_contra hns
    have hne : List.dropWhile isSpace s ≠ [] := by
      intro hd
      exact hns (List.dropWhile_eq_nil_iff.mp hd c hc)
    have hhead := List.head_dropWhile_not isSpace s hne
    have := h _ (List.head_mem hne)
    simp [this] at hhead
  · intro h
    have hd : List.dropWhile isSpace s = [] := List.dropWhile_eq_nil_iff.mpr h
    simp [hd]

theorem TrimSpace_append_space (s w : Str) (hw : ∀ x ∈ w, isSpace x = true) :
    TrimSpace (s ++ w) = TrimSpace s := by
  unfold TrimSpace
  rw [← dropWhile_rdropWhile_comm, ← dropWhile_rdropWhile_comm, rdropWhile_append_all _ _ _ hw]

theorem TrimSpace_rdropWhile (s : Str) :
    TrimSpace (List.rdropWhile isSpace s) = TrimSpace s := by
  unfold TrimSpace
  rw [dropWhile_rdropWhile_comm, List.rdropWhile_idempotent]

theorem Split_ne_nil (s : Str) (sep : Char) : Split s sep ≠ [] := by
  cases s with
  | nil => simp [Split]
  | cons c cs =>
    unfold Split
    split
    · simp
    · split <;> simp

theorem Split_cons_sep (cs : Str) (sep : Char) :
    Split (sep :: cs) sep = [] :: Split cs sep := by
  rw [Split]; simp

theorem Split_cons_other (c : Char) (cs : Str) (sep : Char) (h : c ≠ sep) :
    Split (c :: cs) sep = (c :: (Split cs sep).headD []) :: (Split cs sep).tail := by
  rw [Split]
  simp only [h, if_false]
  cases hs : Split cs sep with
  | nil => exact absurd hs (Split_ne_nil cs sep)
  | cons t ts => simp

theorem Split_no_sep (w : Str) (sep : Char) (h : sep ∉ w) : Split w sep = [w] := by
  induction w with
  | nil => simp [Split]
  | cons c cs ih =>
    have hc : c ≠ sep := fun e => h (by simp [e])
    have hcs : sep ∉ cs := fun e => h (by simp [e])
    rw [Split_cons_other c cs sep hc, ih hcs]
    simp

theorem Split_append (w rest : Str) (sep : Char) (h : sep ∉ w) :
    Split (w ++ sep :: rest) sep = w :: Split rest sep := by
  induction w with
  | nil => simp [Split_cons_sep]
  | cons c cs ih =>
    have hc : c ≠ sep := fun e => h (by simp [e])
    have hcs : sep ∉ cs := fun e => h (by simp [e])
    rw [List.cons_append, Split_cons_other c _ sep hc, ih hcs]
    simp

theorem Split_token_no_sep (s : Str) (sep : Char) : ∀ t ∈ Split s sep, sep ∉ t := by
  induction s with
  | nil => simp [Split]
  | cons c cs ih =>
    by_cases hc : c = sep
    · subst hc
      rw [Split_cons_sep]
      intro t ht
      rcases List.mem_cons.mp ht with h | h
      · simp [h]
      · exact ih t h
    · rw [Split_cons_other c cs _ hc]
      cases hs : Split cs sep with
      | nil => exact absurd hs (Split_ne_nil cs sep)
      | cons u us =>
        rw [hs] at ih
        intro t ht
        simp only [List.headD_cons, List.tail_cons, List.mem_cons] at ht
        rcases ht with h | h
        · subst h
          intro hm
          rcases List.mem_cons.mp hm with h1 | h1
          · exact hc h1.symm
          · exact ih u (by simp) h1
        · exact ih t (by simp [h])

theorem Join_cons_cons (c : Char) (t : Str) (ts : List Str) (sep : Str) :
    Join ((c :: t) :: ts) sep = c :: Join (t :: ts) sep := by
  cases ts <;> simp [Join]

theorem Join_Split (s : Str) (sep : Char) : Join (Split s sep) [sep] = s := by
  induction s with
  | nil => simp [Split, Join]
  | cons c cs ih =>
    by_cases hc : c = sep
    · subst hc
      rw [Split_cons_sep]
      cases hs : Split cs c with
      | nil => exact absurd hs (Split_ne_nil cs c)
      | cons u us =>
        rw [hs] at ih
        simp [Join, ih]
    · rw [Split_cons_other c cs _ hc]
      cases hs : Split cs sep with
      | nil => exact absurd hs (Split_ne_nil cs sep)
      | cons u us =>
        rw [hs] at ih
        simp [Join_cons_cons, ih]

theorem foldl_append_acc (sp : Str) (args : List Str) (acc : Str) :
    args.foldl (fun text arg => text ++ (arg ++ sp)) acc =
      acc ++ args.foldl (fun text arg => text ++ (arg ++ sp)) [] := by
  induction args generalizing acc with
  | nil => simp
  | cons a as ih =>
    simp only [List.foldl_cons, List.nil_append]
    rw [ih (acc ++ (a ++ sp)), ih (a ++ sp)]
    simp

theorem foldl_eq_Join (sp : Str) (args : List Str) (h : args ≠ []) :
    args.foldl (fun text arg => text ++ (arg ++ sp)) [] = Join args sp ++ sp := by
  induction args with
  | nil => exact absurd rfl h
  | cons a as ih =>
    cases as with
    | nil => simp [Join]
    | cons b bs =>
      have hb := ih (by simp)
      rw [List.foldl_cons, foldl_append_acc, hb]
      simp [Join]

theorem Stringify_eq (args : List Str) :
    Stringify args = TrimSpace (Join args " ".toList) := by
  unfold Stringify
  cases args with
  | nil => simp [Join]
  | cons a as =>
    rw [foldl_eq_Join _ _ (by simp)]
    exact TrimSpace_append_space _ _ (by decide)

theorem newCommand_cons (x : Str) (xs : List Str) : newCommand (x :: xs) = ⟨x, xs⟩ := by
  have key : ∀ (l : List Str) (n : Nat) (acc : Str × List Str),
      (l.enumFrom (n + 1)).foldl
        (fun (acc : Str × List Str) (p : Nat × Str) =>
          if p.1 = 0 then (p.2, acc.2) else (acc.1, acc.2 ++ [p.2])) acc
        = (acc.1, acc.2 ++ l) := by
    intro l
    induction l with
    | nil => intro n acc; simp
    | cons y ys ih =>
      intro n acc
      simp only [List.enumFrom_cons, List.foldl_cons]
      rw [if_neg (by simp), ih]
      simp
  unfold newCommand
  simp only [List.enum, List.enumFrom_cons, List.foldl_cons, if_true]
  rw [key]
  simp

theorem newCommand_nil : newCommand [] = ⟨[], []⟩ := by
  simp [newCommand]

theorem matchBackDir_iff (s : Str) :
    matchBackDir s = true ↔
      ∃ w, s = '/' :: w ∧ w ≠ [] ∧ ∀ c ∈ w, isWordChar c = true := by
  cases s with
  | nil => simp [matchBackDir]
  | cons c w =>
    simp only [matchBackDir, Bool.and_eq_true, beq_iff_eq, Bool.not_eq_true',
      List.isEmpty_eq_false, List.all_eq_true, List.cons.injEq]
    constructor
    · rintro ⟨⟨h1, h2⟩, h3⟩
      exact ⟨w, ⟨h1, rfl⟩, h2, h3⟩
    · rintro ⟨w1, ⟨h1, h2⟩, h3, h4⟩
      subst h2
      exact ⟨⟨h1, h3⟩, h4⟩

theorem stripBackDir_segment (p w : Str) (hw : w ≠ [])
    (hall : ∀ c ∈ w, isWordChar c = true) : stripBackDir (p ++ '/' :: w) = p := by
  induction p with
  | nil =>
    have hm : matchBackDir ('/' :: w) = true := (matchBackDir_iff _).mpr ⟨w, rfl, hw, hall⟩
    simp [stripBackDir, hm]
  | cons a p ih =>
    have hm : matchBackDir (a :: (p ++ '/' :: w)) ≠ true := by
      intro h
      obtain ⟨w1, h1, _, h3⟩ := (matchBackDir_iff _).mp h
      have hw1 : w1 = p ++ '/' :: w := (List.cons.inj h1).2.symm
      have := h3 '/' (by simp [hw1])
      revert this
      decide
    rw [List.cons_append, stripBackDir, if_neg hm, ih]

theorem stripBackDir_no_segment (s : Str)
    (h : ¬ ∃ p w, s = p ++ '/' :: w ∧ w ≠ [] ∧ ∀ c ∈ w, isWordChar c = true) :
    stripBackDir s = s := by
  induction s with
  | nil => rfl
  | cons c cs ih =>
    have hm : matchBackDir (c :: cs) ≠ true := by
      intro hm
      obtain ⟨w, h1, h2, h3⟩ := (matchBackDir_iff _).mp hm
      exact h ⟨[], w, by simpa using h1, h2, h3⟩
    rw [stripBackDir, if_neg hm, ih]
    rintro ⟨p, w, h1, h2, h3⟩
    exact h ⟨c :: p, w, by simp [h1], h2, h3⟩

theorem backLoop_eq_iterate (n : Nat) (d : Str) : backLoop n d = stripBackDir^[n] d := by
  induction n generalizing d with
  | zero => rfl
  | succ n ih => rw [backLoop, ih, Function.iterate_succ_apply]

theorem extract_rest_length (env : Env) (str name rest : Str) (num : Int)
    (h : extract env str = some (name, num, rest)) : rest.length ≤ str.length := by
  have hd : ∀ l : Str, (l.dropWhile (isNameRune env)).length ≤ l.length := fun l =>
    (List.dropWhile_sublist _).length_le
  cases str with
  | nil => simp [extract] at h
  | cons c cs =>
    simp only [extract] at h
    by_cases hb : (c == '\x7b') = true
    · simp only [hb, if_true] at h
      split at h
      · exact absurd h (by simp)
      · split at h
        · exact absurd h (by simp)
        · have hr := (Prod.mk.inj (Prod.mk.inj (Option.some.inj h)).2).2
          rw [← hr]
          have := hd cs
          simp only [List.length_tail, List.length_cons]
          omega
    · rw [Bool.not_eq_true] at hb
      simp only [hb, Bool.false_eq_true, if_false, Bool.false_and] at h
      split at h
      · exact absurd h (by simp)
      · have hr := (Prod.mk.inj (Prod.mk.inj (Option.some.inj h)).2).2
        rw [← hr]
        have := hd (c :: cs)
        simpa using this

/-- Any fuel above the length of the template gives the same expansion: the fuel `expand`
starts with is never used up. -/
theorem expandLoop_fuel (env : Env) (m : Str) :
    ∀ (n k : Nat) (t : Str), t.length < n → t.length < k →
      expandLoop env m n t = expandLoop env m k t := by
  intro n
  induction n with
  | zero => intro k t h; omega
  | succ n ih =>
    intro k t hn hk
    cases k with
    | zero => omega
    | succ k =>
      unfold expandLoop
      have hlen : (t.dropWhile (· != '$')).length ≤ t.length :=
        (List.dropWhile_sublist _).length_le
      cases hd : t.dropWhile (· != '$') with
      | nil => rfl
      | cons d after =>
        rw [hd] at hlen
        simp only [List.length_cons] at hlen
        simp only
        by_cases hh : after.head? = some '$'
        · simp only [hh, if_true]
          have : after.tail.length < n := by simp [List.length_tail]; omega
          have : after.tail.length < k := by simp [List.length_tail]; omega
          rw [ih k after.tail ‹_› ‹_›]
        · simp only [hh, if_false]
          cases he : extract env after with
          | none =>
            simp only
            rw [ih k after (by omega) (by omega)]
          | some r =>
            obtain ⟨name, num, rest⟩ := r
            have := extract_rest_length env after name rest num he
            simp only
            rw [ih k rest (by omega) (by omega)]
theorem expand_no_dollar (env : Env) (m t : Str) (h : '$' ∉ t) : expand env m t = t := by
  have hd : t.dropWhile (· != '$') = [] := by
    rw [List.dropWhile_eq_nil_iff]
    intro x hx
    have : x ≠ '$' := fun e => h (e ▸ hx)
    simpa using this
  simp [expand, expandLoop, hd]

theorem cdDots_dotdot (env : Env) (target D : Str) (h : 0 < countDot2 target) :
    cdDots env target D = stripBackDir^[countDot2 target] D := by
  simp [cdDots, h, backLoop_eq_iterate]

theorem cdHome_not_tilde (env : Env) (path : Str) (h : path.head? ≠ some '~') :
    cdHome env path = .ok path := by
  cases path with
  | nil => rfl
  | cons c rest =>
    have hc : c ≠ '~' := fun e => h (by simp [e])
    simp [cdHome, hc]

theorem TrimSpace_decomp (r : Str) :
    ∃ pre post : Str, r = pre ++ TrimSpace r ++ post ∧
      (∀ c ∈ pre, isSpace c = true) ∧ (∀ c ∈ post, isSpace c = true) := by
  refine ⟨r.takeWhile isSpace, (r.dropWhile isSpace).rtakeWhile isSpace, ?_, ?_, ?_⟩
  · have h1 : (r.dropWhile isSpace).rdropWhile isSpace ++
        (r.dropWhile isSpace).rtakeWhile isSpace = r.dropWhile isSpace := by
      simp [List.rdropWhile, List.rtakeWhile, ← List.reverse_append]
    unfold TrimSpace
    rw [List.append_assoc, h1, List.takeWhile_append_dropWhile]
  · intro c hc
    exact List.mem_takeWhile_imp hc
  · intro c hc
    exact List.mem_rtakeWhile_imp hc

theorem TrimSpace_head_not_space (s : Str) (c : Char) (cs : Str)
    (h : TrimSpace s = c :: cs) : isSpace c = false := by
  unfold TrimSpace at h
  rw [← dropWhile_rdropWhile_comm] at h
  have hne : List.dropWhile isSpace (List.rdropWhile isSpace s) ≠ [] := by simp [h]
  have hh := List.head_dropWhile_not isSpace _ hne
  simpa [h] using hh

theorem rdropWhile_self (p : Char → Bool) (w : Str) (h : ∀ c ∈ w, p c = false) :
    List.rdropWhile p w = w := by
  rw [List.rdropWhile_eq_self_iff]
  intro hl
  simp [h _ (List.getLast_mem hl)]

theorem TrimSpace_words (w1 w2 mid : Str) (h1 : w1 ≠ []) (h2 : w2 ≠ [])
    (hw1 : ∀ c ∈ w1, isSpace c = false) (hw2 : ∀ c ∈ w2, isSpace c = false) :
    TrimSpace (w1 ++ mid ++ w2) = w1 ++ mid ++ w2 := by
  unfold TrimSpace
  cases w1 with
  | nil => exact absurd rfl h1
  | cons c cs =>
    have hc : isSpace c = false := hw1 c (by simp)
    have hd : List.dropWhile isSpace (c :: cs ++ mid ++ w2) = c :: cs ++ mid ++ w2 := by
      simp [List.dropWhile_cons, hc]
    rw [hd, rdropWhile_append_keep isSpace _ w2 (by rw [rdropWhile_self _ _ hw2]; exact h2),
      rdropWhile_self _ _ hw2]

theorem Split_spaces (m : Nat) (w : Str) (sep : Char) (h : sep ∉ w) :
    Split (List.replicate m sep ++ w) sep = List.replicate m [] ++ [w] := by
  induction m with
  | zero => simpa using Split_no_sep w sep h
  | succ m ih =>
    rw [List.replicate_succ, List.cons_append, Split_cons_sep, ih]
    rfl

theorem space_not_mem (w : Str) (h : ∀ c ∈ w, isSpace c = false) : ' ' ∉ w := by
  intro hm
  have := h _ hm
  revert this
  decide

theorem cdDots_dot_no_dollar (env : Env) (D rest : Str) (hD : '$' ∉ D)
    (h0 : countDot2 ('.' :: rest) = 0) : cdDots env ('.' :: rest) D = D ++ rest := by
  simp [cdDots, h0, expand_no_dollar env _ D hD]

theorem cdHome_tilde_no_dollar (env : Env) (H rest : Str) (hH : '$' ∉ H)
    (hhome : env.userHomeDir = .ok H) : cdHome env ('~' :: rest) = .ok (H ++ rest) := by
  simp [cdHome, hhome, expand_no_dollar env _ H hH]

theorem parse_head (line : Str) :
    (newCommand (parseInput line)).Command :: (newCommand (parseInput line)).Args =
      Split (TrimSpace line) ' ' := by
  unfold parseInput
  cases hs : Split (TrimSpace line) ' ' with
  | nil => exact absurd hs (Split_ne_nil _ _)
  | cons t ts => rw [newCommand_cons]

theorem typeSearch_first (env : Env) (a : Str) (pre post : List Str) (d : Str)
    (hpre : ∀ x ∈ pre, env.stat (x ++ "/".toList ++ a) = false)
    (hd : env.stat (d ++ "/".toList ++ a) = true) :
    typeSearch env a (pre ++ d :: post) = some (d ++ "/".toList ++ a) := by
  induction pre with
  | nil =>
    rw [List.nil_append, typeSearch]
    simp only [hd, if_true]
  | cons x xs ih =>
    have hx := hpre x (by simp)
    rw [List.cons_append, typeSearch]
    simp only [hx, Bool.false_eq_true, if_false]
    exact ih (fun y hy => hpre y (by simp [hy]))

theorem typeSearch_none (env : Env) (a : Str) (paths : List Str)
    (h : ∀ x ∈ paths, env.stat (x ++ "/".toList ++ a) = false) :
    typeSearch env a paths = none := by
  induction paths with
  | nil => rfl
  | cons x xs ih =>
    have hx := h x (by simp)
    rw [typeSearch]
    simp only [hx, Bool.false_eq_true, if_false]
    exact ih (fun y hy => h y (by simp [hy]))

theorem Type_outcome_cons (env : Env) (a : Str) (rest paths : List Str) (D : Str) :
    («Type» env (a :: rest) paths D).outcome = .ret 0 ∧
    («Type» env (a :: rest) paths D).currentDir = D := by
  unfold «Type»
  simp only
  split
  · exact ⟨rfl, rfl⟩
  · split <;> exact ⟨rfl, rfl⟩

theorem Exit_cases (args : List Str) (D : Str) :
    (Exit args D).currentDir = D ∧
    ((Exit args D).outcome = .ret 1 ∨ (Exit args D).outcome = .osExit 0 ∨
      (Exit args D).outcome = .osExit 1) := by
  cases args with
  | nil => simp [Exit]
  | cons a rest =>
    unfold Exit
    simp only
    split
    · simp
    · split <;> simp

theorem Cd_outcome (env : Env) (args : List Str) (D : Str) :
    (Cd env args D).outcome = .ret 0 ∨ (Cd env args D).outcome = .ret 1 ∨
      (Cd env args D).outcome = .panic := by
  cases args with
  | nil => simp [Cd]
  | cons a rest =>
    unfold Cd
    simp only
    split
    · simp
    · split <;> simp

theorem Exec_cases (env : Env) (c : Command) (paths : List Str) (D : Str) :
    (Exec env c paths D).currentDir = D ∧
    ((Exec env c paths D).outcome = .ret 0 ∨ (Exec env c paths D).outcome = .ret 1) := by
  unfold Exec
  simp only
  split <;> simp

theorem Type_cases (env : Env) (args paths : List Str) (D : Str) :
    («Type» env args paths D).currentDir = D ∧
    ((«Type» env args paths D).outcome = .ret 0 ∨
      («Type» env args paths D).outcome = .ret 1) := by
  cases args with
  | nil => simp [«Type»]
  | cons a rest =>
    have h := Type_outcome_cons env a rest paths D
    exact ⟨h.2, Or.inl h.1⟩

theorem handleInput_outcome (env : Env) (c : Command) (paths : List Str) (D : Str) :
    (handleInput env c paths D).outcome = .ret 0 ∨
    (handleInput env c paths D).outcome = .ret 1 ∨
    (handleInput env c paths D).outcome = .osExit 0 ∨
    (handleInput env c paths D).outcome = .osExit 1 ∨
    (handleInput env c paths D).outcome = .panic := by
  unfold handleInput
  split_ifs
  · rcases (Exit_cases c.Args D).2 with h | h | h <;> simp [h]
  · simp [Echo]
  · rcases (Type_cases env c.Args paths D).2 with h | h <;> simp [h]
  · simp [Pwd]
  · rcases Cd_outcome env c.Args D with h | h | h <;> simp [h]
  · rcases (Exec_cases env c paths D).2 with h | h <;> simp [h]

theorem handleInput_currentDir (env : Env) (c : Command) (paths : List Str) (D : Str)
    (h : c.Command ≠ "cd".toList) : (handleInput env c paths D).currentDir = D := by
  unfold handleInput
  split_ifs
  · exact (Exit_cases c.Args D).1
  · rfl
  · exact (Type_cases env c.Args paths D).1
  · rfl
  · exact (Exec_cases env c paths D).1

theorem handleInput_external (env : Env) (c : Command) (paths : List Str) (D : Str)
    (hb : isBuiltin c.Command = false) :
    handleInput env c paths D = Exec env c paths D := by
  simp only [isBuiltin, Bool.or_eq_false_iff, decide_eq_false_iff_not] at hb
  obtain ⟨⟨⟨⟨h1, h2⟩, h3⟩, h4⟩, h5⟩ := hb
  simp only [handleInput, h1, h2, h3, h4, h5, if_false]

theorem mainIteration_ok (env : Env) (paths : List Str) (D line : Str) :
    (mainIteration env paths D (.ok line)).stdout =
      "$ ".toList ++ (handleInput env (newCommand (parseInput line)) paths D).stdout ∧
    (mainIteration env paths D (.ok line)).path = paths ∧
    (mainIteration env paths D (.ok line)).currentDir =
      (handleInput env (newCommand (parseInput line)) paths D).currentDir := by
  have ho := handleInput_outcome env (newCommand (parseInput line)) paths D
  simp only [mainIteration]
  rcases ho with h | h | h | h | h <;> rw [h] <;> simp

theorem segmentsPath_append (segs : List Str) (w : Str) :
    segmentsPath (segs ++ [w]) = segmentsPath segs ++ '/' :: w := by
  induction segs with
  | nil => simp [segmentsPath]
  | cons a as ih =>
    simp only [segmentsPath, List.cons_append, List.foldr_cons] at ih ⊢
    rw [ih]
    simp

theorem iterate_strip_nil (m : Nat) : stripBackDir^[m] [] = [] := by
  induction m with
  | zero => rfl
  | succ m ih => rw [Function.iterate_succ_apply]; exact ih

theorem iterate_strip_segments (segs : List Str)
    (hw : ∀ w ∈ segs, w ≠ [] ∧ ∀ c ∈ w, isWordChar c = true) :
    stripBackDir^[segs.length] (segmentsPath segs) = [] := by
  induction segs using List.reverseRecOn with
  | nil => rfl
  | append_singleton l w ih =>
    have hl : ∀ v ∈ l, v ≠ [] ∧ ∀ c ∈ v, isWordChar c = true :=
      fun v hv => hw v (by simp [hv])
    have hww := hw w (by simp)
    rw [List.length_append, List.length_singleton, Function.iterate_succ_apply,
      segmentsPath_append, stripBackDir_segment _ _ hww.1 hww.2]
    exact ih hl

theorem TrimSpace_last_not_space (s : Str) (c : Char)
    (h : (TrimSpace s).getLast? = some c) : isSpace c = false := by
  unfold TrimSpace at h
  have hne : List.rdropWhile isSpace (List.dropWhile isSpace s) ≠ [] := by
    intro e
    rw [e] at h
    simp at h
  have hl := List.rdropWhile_last_not isSpace (List.dropWhile isSpace s) hne
  rw [List.getLast?_eq_getLast _ hne] at h
  rw [← Option.some.inj h]
  simpa using hl

theorem TrimSpace_lead (lead s : Str) (h : ∀ c ∈ lead, isSpace c = true) :
    TrimSpace (lead ++ s) = TrimSpace s := by
  unfold TrimSpace
  induction lead with
  | nil => rfl
  | cons a as ih =>
    rw [List.cons_append, List.dropWhile_cons, if_pos (h a (by simp))]
    exact ih (fun c hc => h c (by simp [hc]))

set_option maxRecDepth 20000 in
theorem expand_non_ascii_name :
    expand (envOf [] (.ok [])) ".".toList "/data/$été".toList = "/data/".toList ∧
    expand (envOf [] (.ok [])) ".".toList "/data/$€x".toList = "/data/$€x".toList := by
  decide

/-! ## Claims -/

/-- C1 fails on the code when the last segment of the current directory is not a run of
word characters: from `/app/my-dir` the target `..` should give `/app`, the current
directory without its last `/segment`, but the pattern `/\w+$` does not match `/my-dir`, the
path stays `/app/my-dir`, and as that directory exists `Cd` returns 0 without moving; from
`/app/sub`, whose last segment is a word, the same target gives `/app`. -/
theorem C1_cd_dotdot_keeps_non_word_segment :
    countDot2 "..".toList = 1 ∧
    dropLastSegment "/app/my-dir".toList = "/app".toList ∧
    cdDots (envOf ["/app".toList, "/app/my-dir".toList] (.ok [])) "..".toList
      "/app/my-dir".toList = "/app/my-dir".toList ∧
    Cd (envOf ["/app".toList, "/app/my-dir".toList] (.ok [])) ["..".toList]
      "/app/my-dir".toList = ⟨[], .ret 0, "/app/my-dir".toList⟩ ∧
    Cd (envOf ["/app".toList, "/app/sub".toList] (.ok [])) ["..".toList]
      "/app/sub".toList = ⟨[], .ret 0, "/app".toList⟩ := by
  decide

/-- C2, as stated, fails in its last part: it does not hold that for every target starting
with `/` the path printed is the target. The target `/does/not/../exist` holds a `..`, so
from `/app` the path is `/app` stripped once, the empty string, and `Cd` prints
`cd: : No such file or directory`. -/
theorem C2_counterexample :
    (¬ (∀ (env : Env) (D target p : Str) (rest : List Str),
        cdHome env (cdDots env target D) = .ok p → env.stat p = false →
        target.head? = some '/' →
        (Cd env (target :: rest) D).stdout =
          "cd: ".toList ++ target ++ ": No such file or directory\n".toList)) ∧
    Cd (envOf ["/app".toList] (.ok [])) ["/does/not/../exist".toList] "/app".toList =
      ⟨"cd: : No such file or directory\n".toList, .ret 1, "/app".toList⟩ := by
  constructor
  · intro h
    have h1 := h (envOf ["/app".toList] (.ok [])) "/app".toList "/does/not/../exist".toList []
      [] rfl (by decide) (by decide)
    revert h1
    decide
  · decide

/-- C2, amended: whenever the path `Cd` resolved the target to does not exist, `Cd` leaves the
current directory unchanged, returns 1 and prints exactly
`cd: <path>: No such file or directory` and a newline; for a target that starts with `/`
and has no `..` in it, such as `/does/not/exist`, the printed path is the target. -/
theorem C2_cd_missing_path (env : Env) (D target p : Str) (rest : List Str)
    (hres : cdHome env (cdDots env target D) = .ok p) (hmiss : env.stat p = false) :
    Cd env (target :: rest) D =
      ⟨"cd: ".toList ++ p ++ ": No such file or directory\n".toList, .ret 1, D⟩ ∧
    (target.head? = some '/' → countDot2 target = 0 → p = target) := by
  constructor
  · simp [Cd, hres, hmiss]
  · intro hhead hcount
    cases target with
    | nil => simp at hhead
    | cons c cs =>
      have hc : c = '/' := by simpa using hhead
      subst hc
      have hd : cdDots env ('/' :: cs) D = '/' :: cs := by
        simp [cdDots, hcount]
      rw [hd, cdHome_not_tilde env _ (by simp)] at hres
      exact (Except.ok.inj hres).symm

/-- C2 at `cd /does/not/exist` from `/app` on a filesystem holding only `/app`. -/
theorem C2_cd_missing_path_witness :
    Cd (envOf ["/app".toList] (.ok [])) ["/does/not/exist".toList] "/app".toList =
      ⟨"cd: /does/not/exist: No such file or directory\n".toList, .ret 1, "/app".toList⟩ :=
  (C2_cd_missing_path (envOf ["/app".toList] (.ok [])) "/app".toList
    "/does/not/exist".toList "/does/not/exist".toList [] rfl rfl).1

/-- C3, as stated, fails: after the successful `cd ..` from `/app/sub`, `pwd` prints `/app`
and not the argument `..`. -/
theorem C3_counterexample :
    ¬ (∀ (env : Env) (paths : List Str) (D dir : Str),
        (handleInput env ⟨"cd".toList, [dir]⟩ paths D).outcome = .ret 0 →
        (handleInput env ⟨"pwd".toList, []⟩ paths
          (handleInput env ⟨"cd".toList, [dir]⟩ paths D).currentDir).stdout
          = dir ++ "\n".toList) := by
  intro h
  have h1 := h (envOf ["/app".toList] (.ok [])) [] "/app/sub".toList "..".toList (by decide)
  revert h1
  decide

/-- C3, amended: if dispatching `cd <dir>` returns 0, the current directory is the path `Cd`
resolved `<dir>` to and found present, and dispatching `pwd` immediately afterwards prints
exactly that path and a newline; the path is `<dir>` itself when `<dir>` has no `..` and
starts with neither `.` nor `~`. -/
theorem C3_cd_then_pwd (env : Env) (paths : List Str) (D dir : Str) (rest pwdArgs : List Str)
    (hok : (handleInput env ⟨"cd".toList, dir :: rest⟩ paths D).outcome = .ret 0) :
    cdHome env (cdDots env dir D) =
      .ok (handleInput env ⟨"cd".toList, dir :: rest⟩ paths D).currentDir ∧
    env.stat (handleInput env ⟨"cd".toList, dir :: rest⟩ paths D).currentDir = true ∧
    handleInput env ⟨"pwd".toList, pwdArgs⟩ paths
        (handleInput env ⟨"cd".toList, dir :: rest⟩ paths D).currentDir =
      ⟨(handleInput env ⟨"cd".toList, dir :: rest⟩ paths D).currentDir ++ "\n".toList, .ret 0,
        (handleInput env ⟨"cd".toList, dir :: rest⟩ paths D).currentDir⟩ ∧
    (countDot2 dir = 0 → dir.head? ≠ some '.' → dir.head? ≠ some '~' →
      (handleInput env ⟨"cd".toList, dir :: rest⟩ paths D).currentDir = dir) := by
  have hcd : handleInput env ⟨"cd".toList, dir :: rest⟩ paths D = Cd env (dir :: rest) D := by
    simp [handleInput]
  have hpwd : ∀ d : Str, handleInput env ⟨"pwd".toList, pwdArgs⟩ paths d = Pwd d := by
    intro d; simp [handleInput]
  rw [hcd] at hok ⊢
  rw [hpwd]
  cases hres : cdHome env (cdDots env dir D) with
  | error e => simp [Cd, hres] at hok
  | ok p =>
    by_cases hs : env.stat p = true
    · have hrun : Cd env (dir :: rest) D = ⟨[], .ret 0, p⟩ := by simp [Cd, hres, hs]
      rw [hrun]
      refine ⟨rfl, hs, rfl, ?_⟩
      intro h0 h1 h2
      have hd : cdDots env dir D = dir := by
        cases dir with
        | nil => simp [cdDots, countDot2]
        | cons c cs =>
          have hc : c ≠ '.' := fun e => h1 (by simp [e])
          simp [cdDots, h0, hc]
      rw [hd, cdHome_not_tilde env _ h2] at hres
      exact (Except.ok.inj hres).symm
    · simp [Cd, hres, hs] at hok

/-- C3 at `cd /tmp` from `/app`: `pwd` then prints `/tmp` and a newline. -/
theorem C3_cd_then_pwd_witness :
    (handleInput (envOf ["/tmp".toList] (.ok [])) ⟨"cd".toList, ["/tmp".toList]⟩ []
      "/app".toList).outcome = .ret 0 ∧
    handleInput (envOf ["/tmp".toList] (.ok [])) ⟨"pwd".toList, []⟩ []
        (handleInput (envOf ["/tmp".toList] (.ok [])) ⟨"cd".toList, ["/tmp".toList]⟩ []
          "/app".toList).currentDir =
      ⟨(handleInput (envOf ["/tmp".toList] (.ok [])) ⟨"cd".toList, ["/tmp".toList]⟩ []
          "/app".toList).currentDir ++ "\n".toList, .ret 0,
        (handleInput (envOf ["/tmp".toList] (.ok [])) ⟨"cd".toList, ["/tmp".toList]⟩ []
          "/app".toList).currentDir⟩ :=
  ⟨by decide,
    (C3_cd_then_pwd (envOf ["/tmp".toList] (.ok [])) [] "/app".toList "/tmp".toList [] []
      (by decide)).2.2.1⟩

/-- C4, as stated, fails: `Echo` does not always print `strings.Join(args, " ")`. For the
arguments `""`, `"a"` (the line `echo  a` with two spaces) the join is ` a` with a leading
space, and `Echo` prints `a`. -/
theorem C4_counterexample :
    ¬ (∀ (args : List Str) (D : Str),
        (Echo args D).stdout = Join args " ".toList ++ "\n".toList) := by
  intro h
  have h1 := h [[], "a".toList] []
  revert h1
  decide

/-- C4, amended: for every argument list, `Echo` prints the arguments joined with single
spaces, with the white space at the two ends of the joined string removed, followed by one
newline, and returns 0. -/
theorem C4_echo_prints_trimmed_join (args : List Str) (D : Str) :
    Echo args D = ⟨TrimSpace (Join args " ".toList) ++ "\n".toList, .ret 0, D⟩ := by
  simp [Echo, Stringify_eq]

/-- C5: for every string `r`, parsing the line `echo ` followed by `r` and dispatching the
result prints `r` with the white space at its two ends removed and nothing else changed,
followed by a newline; the line `echo a  b` parses to the arguments `a`, the empty string,
`b` and prints `a  b`. -/
theorem C5_echo_end_to_end (env : Env) (paths : List Str) (D r : Str) :
    handleInput env (newCommand (parseInput ("echo ".toList ++ r))) paths D =
      ⟨TrimSpace r ++ "\n".toList, .ret 0, D⟩ ∧
    (∃ pre post : Str, r = pre ++ TrimSpace r ++ post ∧
      (∀ c ∈ pre, isSpace c = true) ∧ (∀ c ∈ post, isSpace c = true)) ∧
    newCommand (parseInput "echo a  b".toList) =
      ⟨"echo".toList, ["a".toList, [], "b".toList]⟩ ∧
    handleInput env (newCommand (parseInput "echo a  b".toList)) paths D =
      ⟨"a  b\n".toList, .ret 0, D⟩ := by
  have hecho : ∀ args : List Str,
      handleInput env ⟨"echo".toList, args⟩ paths D =
        ⟨TrimSpace (Join args " ".toList) ++ "\n".toList, .ret 0, D⟩ := by
    intro args
    have hne : "echo".toList ≠ "exit".toList := by decide
    simp [handleInput, hne, Echo, Stringify_eq]
  have hlit : "echo ".toList = "echo".toList ++ ' ' :: [] := by decide
  have hmain : handleInput env (newCommand (parseInput ("echo ".toList ++ r))) paths D =
      ⟨TrimSpace r ++ "\n".toList, .ret 0, D⟩ := by
    have hdrop : List.dropWhile isSpace ("echo ".toList ++ r) = "echo ".toList ++ r := by
      have he : "echo ".toList ++ r = 'e' :: ("cho ".toList ++ r) := rfl
      rw [he, List.dropWhile_cons]
      have : isSpace 'e' = false := by decide
      simp [this]
    by_cases hall : ∀ c ∈ r, isSpace c = true
    · have ht : TrimSpace ("echo ".toList ++ r) = "echo".toList := by
        unfold TrimSpace
        rw [hdrop, rdropWhile_append_all _ _ _ hall]
        decide
      have hr : TrimSpace r = [] := (TrimSpace_eq_nil_iff r).mpr hall
      have hp : parseInput ("echo ".toList ++ r) = ["echo".toList] := by
        unfold parseInput
        rw [ht]
        decide
      rw [hp, newCommand_cons, hecho, hr]
      simp [Join, TrimSpace_nil]
    · have hne : List.rdropWhile isSpace r ≠ [] := by
        intro h
        exact hall (List.rdropWhile_eq_nil_iff.mp h)
      have ht : TrimSpace ("echo ".toList ++ r) =
          "echo".toList ++ ' ' :: List.rdropWhile isSpace r := by
        unfold TrimSpace
        rw [hdrop, rdropWhile_append_keep _ _ _ hne, hlit]
        simp
      have hp : parseInput ("echo ".toList ++ r) =
          "echo".toList :: Split (List.rdropWhile isSpace r) ' ' := by
        unfold parseInput
        rw [ht, Split_append _ _ _ (by decide)]
      have hsp : " ".toList = [' '] := rfl
      rw [hp, newCommand_cons, hecho, hsp, Join_Split, TrimSpace_rdropWhile]
  refine ⟨hmain, TrimSpace_decomp r, by decide, ?_⟩
  have h2 := hecho ["a".toList, [], "b".toList]
  have h3 : newCommand (parseInput "echo a  b".toList) =
      ⟨"echo".toList, ["a".toList, [], "b".toList]⟩ := by decide
  rw [h3, h2]
  have h4 : TrimSpace (Join ["a".toList, [], "b".toList] " ".toList) = "a  b".toList := by
    decide
  rw [h4]
  rfl

/-- C6: for every input line, `parseInput` followed by `newCommand` gives a command whose
name is the first and whose arguments are the remaining pieces, in order, of the trimmed
line cut at every single space. The pieces hold no space, and joined by single spaces they
give the line without the white space at its two ends: the line is a run of white space, the
joined pieces, a run of white space, and the joined pieces neither start nor end with white
space. Nothing is collapsed: two words separated by `n ≥ 1` spaces, with any white space
before and after them, give the first word as name and `n - 1` empty arguments followed by
the second word. -/
theorem C6_parse_tokens (line : Str) :
    (newCommand (parseInput line)).Command :: (newCommand (parseInput line)).Args =
      Split (TrimSpace line) ' ' ∧
    Join ((newCommand (parseInput line)).Command :: (newCommand (parseInput line)).Args)
      " ".toList = TrimSpace line ∧
    (∀ t ∈ (newCommand (parseInput line)).Command :: (newCommand (parseInput line)).Args,
      ' ' ∉ t) ∧
    (∃ pre post : Str,
      line = pre ++ Join ((newCommand (parseInput line)).Command ::
        (newCommand (parseInput line)).Args) " ".toList ++ post ∧
      (∀ c ∈ pre, isSpace c = true) ∧ (∀ c ∈ post, isSpace c = true)) ∧
    (∀ c : Char, (Join ((newCommand (parseInput line)).Command ::
        (newCommand (parseInput line)).Args) " ".toList).head? = some c →
      isSpace c = false) ∧
    (∀ c : Char, (Join ((newCommand (parseInput line)).Command ::
        (newCommand (parseInput line)).Args) " ".toList).getLast? = some c →
      isSpace c = false) ∧
    (∀ (lead trail w1 w2 : Str) (n : Nat),
      (∀ c ∈ lead, isSpace c = true) → (∀ c ∈ trail, isSpace c = true) →
      w1 ≠ [] → w2 ≠ [] →
      (∀ c ∈ w1, isSpace c = false) → (∀ c ∈ w2, isSpace c = false) → 1 ≤ n →
      newCommand (parseInput (lead ++ (w1 ++ List.replicate n ' ' ++ w2) ++ trail)) =
        ⟨w1, List.replicate (n - 1) [] ++ [w2]⟩) := by
  have hj : Join ((newCommand (parseInput line)).Command ::
      (newCommand (parseInput line)).Args) " ".toList = TrimSpace line := by
    rw [parse_head]
    exact Join_Split _ _
  refine ⟨parse_head line, hj, ?_, ?_, ?_, ?_, ?_⟩
  · rw [parse_head]
    exact Split_token_no_sep _ _
  · rw [hj]
    exact TrimSpace_decomp line
  · intro c hc
    rw [hj] at hc
    cases ht : TrimSpace line with
    | nil => rw [ht] at hc; simp at hc
    | cons d ds =>
      rw [ht] at hc
      have hd : d = c := by simpa using hc
      rw [← hd]
      exact TrimSpace_head_not_space line d ds ht
  · intro c hc
    rw [hj] at hc
    exact TrimSpace_last_not_space line c hc
  · intro lead trail w1 w2 n hlead htrail h1 h2 hw1 hw2 hn
    unfold parseInput
    rw [TrimSpace_append_space _ _ htrail, TrimSpace_lead _ _ hlead,
      TrimSpace_words w1 w2 _ h1 h2 hw1 hw2]
    obtain ⟨m, rfl⟩ : ∃ m, n = m + 1 := ⟨n - 1, by omega⟩
    rw [List.replicate_succ, List.append_assoc, List.cons_append,
      Split_append _ _ _ (space_not_mem w1 hw1), Split_spaces _ _ _ (space_not_mem w2 hw2),
      newCommand_cons]
    simp

/-- C6 at the line made of two spaces, `ls`, three spaces, `-l` and a newline: the command
is `ls` and the arguments are two empty strings followed by `-l`. -/
theorem C6_parse_tokens_witness :
    newCommand (parseInput ("  ".toList ++
        ("ls".toList ++ List.replicate 3 ' ' ++ "-l".toList) ++ "\n".toList)) =
      ⟨"ls".toList, List.replicate (3 - 1) [] ++ ["-l".toList]⟩ :=
  (C6_parse_tokens []).2.2.2.2.2.2 "  ".toList "\n".toList "ls".toList "-l".toList 3
    (by decide) (by decide) (by decide) (by decide) (by decide) (by decide) (by decide)

/-- C7: for every input line, the command name `parseInput` and `newCommand` produce is the
empty string if and only if the line is empty or made of white space only. -/
theorem C7_empty_name_iff_blank_line (line : Str) :
    (newCommand (parseInput line)).Command = [] ↔ ∀ c ∈ line, isSpace c = true := by
  rw [← TrimSpace_eq_nil_iff]
  have hh := parse_head line
  cases ht : TrimSpace line with
  | nil =>
    rw [ht] at hh
    have : Split ([] : Str) ' ' = [[]] := by simp [Split]
    rw [this] at hh
    simp [(List.cons.inj hh).1]
  | cons c cs =>
    have hc : isSpace c = false := TrimSpace_head_not_space line c cs ht
    have hne : c ≠ ' ' := by
      intro e
      rw [e] at hc
      revert hc
      decide
    rw [ht, Split_cons_other c cs _ hne] at hh
    simp [(List.cons.inj hh).1]

/-- C8 fails on the code when the current directory holds a `$`: from `/data/$cache` the
target `./logs` gives the path `/data//logs` before home expansion, not
`/data/$cache/logs`, because the current directory is handed to `ReplaceAllString` as a
replacement template and `$cache` is expanded to the empty string; with `/data/$cache/logs`
present, `Cd` reports the other path missing and returns 1. -/
theorem C8_cd_dot_dollar_in_current_dir :
    cdDots (envOf ["/data/$cache".toList, "/data/$cache/logs".toList] (.ok []))
      "./logs".toList "/data/$cache".toList = "/data//logs".toList ∧
    "/data/$cache".toList ++ "./logs".toList.tail = "/data/$cache/logs".toList ∧
    Cd (envOf ["/data/$cache".toList, "/data/$cache/logs".toList] (.ok []))
      ["./logs".toList] "/data/$cache".toList =
      ⟨"cd: /data//logs: No such file or directory\n".toList, .ret 1,
        "/data/$cache".toList⟩ := by
  decide

/-- C9, as stated, fails: from `/app`, which does not end in `/`, the target `./foo` gives
the path `/app/foo`, not `/appfoo`: only the leading `.` is replaced and the `/` of the
target stays. -/
theorem C9_counterexample :
    ¬ (∀ (env : Env) (D : Str), D.getLast? ≠ some '/' →
        cdDots env "./foo".toList D = D ++ "foo".toList) := by
  intro h
  have h1 := h (envOf [] (.ok [])) "/app".toList (by decide)
  revert h1
  decide

/-- C9, amended: for every current directory `D` that holds no `$`, whether or not it ends
in `/`, the target `./foo` gives the path `D` followed by `/foo`: the leading `.` alone is
replaced by `D`; when `D` does not start with `~` this is also the path checked for
existence. -/
theorem C9_cd_dot_slash_foo (env : Env) (D : Str) (hD : '$' ∉ D) :
    cdDots env "./foo".toList D = D ++ "/foo".toList ∧
    (D.head? ≠ some '~' → cdHome env (cdDots env "./foo".toList D) = .ok (D ++ "/foo".toList)) := by
  have h : cdDots env "./foo".toList D = D ++ "/foo".toList :=
    cdDots_dot_no_dollar env D "/foo".toList hD (by decide)
  refine ⟨h, ?_⟩
  intro hhead
  rw [h]
  apply cdHome_not_tilde
  cases D with
  | nil => decide
  | cons c cs => simpa using hhead

/-- C9 at the current directory `/app`: `./foo` gives `/app/foo`. -/
theorem C9_cd_dot_slash_foo_witness :
    cdDots (envOf [] (.ok [])) "./foo".toList "/app".toList = "/app/foo".toList :=
  (C9_cd_dot_slash_foo (envOf [] (.ok [])) "/app".toList (by decide)).1

/-- C10 fails on the code when the home directory holds a `$`: with the home directory
`/home/a$b`, present on the filesystem, `cd ~` checks the path `/home/a` (the home
directory is handed to `ReplaceAllString` as a replacement template and `$b` is expanded to
the empty string), reports it missing and returns 1; with the home directory `/home/u` the
same call succeeds. -/
theorem C10_cd_home_dollar_in_home_dir :
    cdHome (envOf ["/home/a$b".toList] (.ok "/home/a$b".toList)) "~".toList =
      .ok "/home/a".toList ∧
    Cd (envOf ["/home/a$b".toList] (.ok "/home/a$b".toList)) ["~".toList] "/app".toList =
      ⟨"cd: /home/a: No such file or directory\n".toList, .ret 1, "/app".toList⟩ ∧
    Cd (envOf ["/home/u".toList] (.ok "/home/u".toList)) ["~".toList] "/app".toList =
      ⟨[], .ret 0, "/home/u".toList⟩ := by
  refine ⟨rfl, by decide, by decide⟩

/-- C11: for every ordered list of search paths and every first argument `a`: when `a` is
`type`, `echo` or `exit`, `Type` prints exactly `a is a shell builtin`; otherwise it prints
exactly the one line `a is d/a` for the first directory `d` of the list for which `d/a`
exists, whatever follows `d` in the list, or `a not found` when `d/a` exists for no
directory of the list; `type echo` prints `echo is a shell builtin`. -/
theorem C11_type_output (env : Env) (a : Str) (rest paths : List Str) (D : Str) :
    ((a = "type".toList ∨ a = "echo".toList ∨ a = "exit".toList) →
      «Type» env (a :: rest) paths D = ⟨a ++ " is a shell builtin\n".toList, .ret 0, D⟩) ∧
    (¬ (a = "type".toList ∨ a = "echo".toList ∨ a = "exit".toList) →
      ∀ (pre post : List Str) (d : Str), paths = pre ++ d :: post →
        (∀ x ∈ pre, env.stat (x ++ "/".toList ++ a) = false) →
        env.stat (d ++ "/".toList ++ a) = true →
        «Type» env (a :: rest) paths D =
          ⟨a ++ " is ".toList ++ (d ++ "/".toList ++ a) ++ "\n".toList, .ret 0, D⟩) ∧
    (¬ (a = "type".toList ∨ a = "echo".toList ∨ a = "exit".toList) →
      (∀ x ∈ paths, env.stat (x ++ "/".toList ++ a) = false) →
      «Type» env (a :: rest) paths D = ⟨a ++ " not found\n".toList, .ret 0, D⟩) ∧
    «Type» env ["echo".toList] paths D = ⟨"echo is a shell builtin\n".toList, .ret 0, D⟩ := by
  refine ⟨?_, ?_, ?_, ?_⟩
  · intro hb
    simp only [«Type», hb, if_true]
  · intro hb pre post d hp hpre hd
    subst hp
    simp only [«Type», hb, if_false, typeSearch_first env a pre post d hpre hd]
  · intro hb hnone
    simp only [«Type», hb, if_false, typeSearch_none env a paths hnone]
  · have h : "echo".toList = "type".toList ∨ "echo".toList = "echo".toList ∨
        "echo".toList = "exit".toList := Or.inr (Or.inl rfl)
    simp only [«Type», h, if_true]
    rfl

/-- C11 at `type ls` with the search paths `/bin`, `/usr/bin`, `/opt` where `/usr/bin/ls`
and `/opt/ls` exist: only `/usr/bin/ls` is reported. -/
theorem C11_type_output_witness :
    «Type» (envOf ["/usr/bin/ls".toList, "/opt/ls".toList] (.ok [])) ["ls".toList]
        ["/bin".toList, "/usr/bin".toList, "/opt".toList] "/app".toList =
      ⟨"ls".toList ++ " is ".toList ++ ("/usr/bin".toList ++ "/".toList ++ "ls".toList) ++
        "\n".toList, .ret 0, "/app".toList⟩ :=
  (C11_type_output (envOf ["/usr/bin/ls".toList, "/opt/ls".toList] (.ok [])) "ls".toList []
    ["/bin".toList, "/usr/bin".toList, "/opt".toList] "/app".toList).2.1 (by decide)
    ["/bin".toList] ["/opt".toList] "/usr/bin".toList rfl (by decide) (by decide)

/-- C12: for every argument list, `Exit` terminates the process with status 0 exactly when
the first argument is `0`, with status 1 exactly when the first argument is `1`, and in
every other case (no argument, or another first argument such as `7`) it does not terminate
but prints the usage line and returns 1. -/
theorem C12_exit_status (args : List Str) (D : Str) :
    ((Exit args D).outcome = .osExit 0 ↔ args.head? = some "0".toList) ∧
    ((Exit args D).outcome = .osExit 1 ↔ args.head? = some "1".toList) ∧
    (args.head? ≠ some "0".toList → args.head? ≠ some "1".toList →
      Exit args D = ⟨"Command format error, usage: exit <0|1>\n".toList, .ret 1, D⟩) := by
  cases args with
  | nil => simp [Exit]
  | cons a rest =>
    have h01 : "0".toList ≠ "1".toList := by decide
    by_cases h0 : a = "0".toList
    · subst h0
      simp only [Exit, if_true, List.head?_cons]
      simp [h01]
    · by_cases h1 : a = "1".toList
      · subst h1
        simp only [Exit, h0, if_false, if_true, List.head?_cons]
        simp [h01.symm]
      · simp only [Exit, h0, h1, if_false, List.head?_cons]
        simp
        exact ⟨fun e => h0 (by rw [e]; rfl), fun e => h1 (by rw [e]; rfl)⟩

/-- C12 at `exit 7`: the usage line is printed and 1 is returned. -/
theorem C12_exit_status_witness :
    Exit ["7".toList] "/app".toList =
      ⟨"Command format error, usage: exit <0|1>\n".toList, .ret 1, "/app".toList⟩ :=
  (C12_exit_status ["7".toList] "/app".toList).2.2 (by decide) (by decide)

/-- C13 fails on the code: the line `cd` gives a command with an empty argument list, and
`Cd` reads `c.Args[0]` with no check of the length, so dispatching it ends in an
index-out-of-range panic that stops the loop instead of returning 1; `exit` and `type`
without arguments, which do check the length, print their usage line and return 1. -/
theorem C13_cd_without_argument_panics (env : Env) (paths : List Str) (D : Str) :
    newCommand (parseInput "cd\n".toList) = ⟨"cd".toList, []⟩ ∧
    handleInput env (newCommand (parseInput "cd\n".toList)) paths D = ⟨[], .panic, D⟩ ∧
    (mainIteration env paths D (.ok "cd\n".toList)).stopped = some .panic ∧
    (handleInput env (newCommand (parseInput "exit\n".toList)) paths D).outcome = .ret 1 ∧
    (handleInput env (newCommand (parseInput "type\n".toList)) paths D).outcome = .ret 1 := by
  have hcd : newCommand (parseInput "cd\n".toList) = ⟨"cd".toList, []⟩ := by decide
  have hexit : newCommand (parseInput "exit\n".toList) = ⟨"exit".toList, []⟩ := by decide
  have htype : newCommand (parseInput "type\n".toList) = ⟨"type".toList, []⟩ := by decide
  have hrun : handleInput env ⟨"cd".toList, []⟩ paths D = ⟨[], .panic, D⟩ := by
    simp [handleInput, Cd]
  refine ⟨hcd, ?_, ?_, ?_, ?_⟩
  · rw [hcd, hrun]
  · simp only [mainIteration]
    rw [hcd, hrun]
  · rw [hexit]
    simp [handleInput, Exit]
  · rw [htype]
    simp [handleInput, «Type»]

/-- C14: for every command whose name is not `cd`, `handleInput` leaves the current
directory as it was; and whatever the input of a pass of the loop, the search-path list and,
for a line whose command is not `cd`, the current directory are the same after the pass. -/
theorem C14_dispatch_frame (env : Env) (c : Command) (paths : List Str) (D : Str) :
    (c.Command ≠ "cd".toList → (handleInput env c paths D).currentDir = D) ∧
    (∀ input : Except Str Str, (mainIteration env paths D input).path = paths) ∧
    (∀ line : Str, (newCommand (parseInput line)).Command ≠ "cd".toList →
      (mainIteration env paths D (.ok line)).currentDir = D) := by
  refine ⟨handleInput_currentDir env c paths D, ?_, ?_⟩
  · intro input
    cases input with
    | error e => rfl
    | ok line => exact (mainIteration_ok env paths D line).2.1
  · intro line h
    rw [(mainIteration_ok env paths D line).2.2]
    exact handleInput_currentDir env _ paths D h

/-- C14 at the command `echo hi` dispatched in `/app`: the current directory stays `/app`. -/
theorem C14_dispatch_frame_witness :
    (handleInput (envOf [] (.ok [])) ⟨"echo".toList, ["hi".toList]⟩ ["/bin".toList]
      "/app".toList).currentDir = "/app".toList :=
  (C14_dispatch_frame (envOf [] (.ok [])) ⟨"echo".toList, ["hi".toList]⟩ ["/bin".toList]
    "/app".toList).1 (by decide)

/-- C15: for every argument list and search-path list, `Type` returns 1 if and only if the
argument list is empty, and then it prints the usage line; with at least one argument it
returns 0, whether the name is found or not. -/
theorem C15_type_exit_code (env : Env) (args paths : List Str) (D : Str) :
    ((«Type» env args paths D).outcome = .ret 1 ↔ args = []) ∧
    «Type» env [] paths D =
      ⟨"Command format error, usage: type <command>\n".toList, .ret 1, D⟩ ∧
    (∀ (a : Str) (rest : List Str), («Type» env (a :: rest) paths D).outcome = .ret 0) := by
  refine ⟨?_, rfl, fun a rest => (Type_outcome_cons env a rest paths D).1⟩
  cases args with
  | nil => simp [«Type»]
  | cons a rest => simp [(Type_outcome_cons env a rest paths D).1]

/-- C16: for every current directory and every two targets holding the same number
`k ≥ 1` of occurrences of `..`, `Cd` computes the same path, the current directory stripped
`k` times, and so behaves the same on both: nothing else of the target is used; `a..b` is
treated as `..` is. -/
theorem C16_same_count_same_path (env : Env) (D t1 t2 : Str) (r1 r2 : List Str)
    (hk : countDot2 t1 = countDot2 t2) (h1 : 1 ≤ countDot2 t1) :
    cdDots env t1 D = cdDots env t2 D ∧
    cdDots env t1 D = stripBackDir^[countDot2 t1] D ∧
    Cd env (t1 :: r1) D = Cd env (t2 :: r2) D ∧
    Cd env ["a..b".toList] D = Cd env ["..".toList] D := by
  have e1 := cdDots_dotdot env t1 D h1
  have e2 := cdDots_dotdot env t2 D (hk ▸ h1)
  have e : cdDots env t1 D = cdDots env t2 D := by rw [e1, e2, hk]
  have e3 : cdDots env "a..b".toList D = cdDots env "..".toList D := by
    rw [cdDots_dotdot env "a..b".toList D (by decide),
      cdDots_dotdot env "..".toList D (by decide)]
    rfl
  refine ⟨e, e1, ?_, ?_⟩
  · simp only [Cd, e]
  · simp only [Cd, e3]

/-- C16 at the targets `a..b` and `..` from `/app/sub`: both give `/app`. -/
theorem C16_same_count_same_path_witness :
    cdDots (envOf [] (.ok [])) "a..b".toList "/app/sub".toList =
      cdDots (envOf [] (.ok [])) "..".toList "/app/sub".toList :=
  (C16_same_count_same_path (envOf [] (.ok [])) "/app/sub".toList "a..b".toList "..".toList
    [] [] (by decide) (by decide)).1

/-- C17: a strip of the empty path gives the empty path, and for every current directory
`/w1/.../wn` made of `n` word segments and every target holding `k ≥ n` occurrences of `..`
(at least one, so that the target is handled as a `..` target), the path `Cd` computes is
the empty string, not `/`, however large `k` is. -/
theorem C17_walk_past_root (env : Env) (segs : List Str) (target : Str)
    (hw : ∀ w ∈ segs, w ≠ [] ∧ ∀ c ∈ w, isWordChar c = true)
    (hk : segs.length ≤ countDot2 target) (h1 : 1 ≤ countDot2 target) :
    stripBackDir [] = [] ∧
    cdDots env target (segmentsPath segs) = [] ∧
    cdDots env target (segmentsPath segs) ≠ "/".toList := by
  have h : cdDots env target (segmentsPath segs) = [] := by
    rw [cdDots_dotdot env target _ h1]
    obtain ⟨m, hm⟩ : ∃ m, countDot2 target = m + segs.length :=
      ⟨countDot2 target - segs.length, by omega⟩
    rw [hm, Function.iterate_add_apply, iterate_strip_segments segs hw]
    exact iterate_strip_nil m
  refine ⟨rfl, h, ?_⟩
  rw [h]
  decide

/-- C17 at the current directory `/app/sub` and the target `../../../..`: the path is empty. -/
theorem C17_walk_past_root_witness :
    cdDots (envOf [] (.ok [])) "../../../..".toList
      (segmentsPath ["app".toList, "sub".toList]) = [] :=
  (C17_walk_past_root (envOf [] (.ok [])) ["app".toList, "sub".toList] "../../../..".toList
    (by decide) (by decide) (by decide)).2.1

/-- C18: for every command, search-path list and state, `handleInput` ends with the code 0
or 1, a process exit or a panic, never with the code 2; so a pass of the loop over a line
prints the prompt and what the dispatch printed and nothing more, and for a command that is
not a builtin and whose run fails this is the output of the child followed by the single
line `<name>: command not found` that `Exec` prints. -/
theorem C18_never_not_found (env : Env) (c : Command) (paths : List Str) (D : Str) :
    ((handleInput env c paths D).outcome = .ret 0 ∨
      (handleInput env c paths D).outcome = .ret 1 ∨
      (handleInput env c paths D).outcome = .osExit 0 ∨
      (handleInput env c paths D).outcome = .osExit 1 ∨
      (handleInput env c paths D).outcome = .panic) ∧
    (handleInput env c paths D).outcome ≠ .ret 2 ∧
    (∀ line : Str, (mainIteration env paths D (.ok line)).stdout =
      "$ ".toList ++ (handleInput env (newCommand (parseInput line)) paths D).stdout) ∧
    (isBuiltin c.Command = false →
      (env.run c.Command (Join c.Args " ".toList) paths).2 = false →
      handleInput env c paths D =
        ⟨(env.run c.Command (Join c.Args " ".toList) paths).1 ++
          (c.Command ++ ": command not found\n".toList), .ret 1, D⟩) ∧
    (∀ line : Str, isBuiltin (newCommand (parseInput line)).Command = false →
      (env.run (newCommand (parseInput line)).Command
        (Join (newCommand (parseInput line)).Args " ".toList) paths).2 = false →
      (mainIteration env paths D (.ok line)).stdout =
        "$ ".toList ++ ((env.run (newCommand (parseInput line)).Command
          (Join (newCommand (parseInput line)).Args " ".toList) paths).1 ++
          ((newCommand (parseInput line)).Command ++ ": command not found\n".toList))) := by
  have hext : ∀ c : Command, isBuiltin c.Command = false →
      (env.run c.Command (Join c.Args " ".toList) paths).2 = false →
      handleInput env c paths D =
        ⟨(env.run c.Command (Join c.Args " ".toList) paths).1 ++
          (c.Command ++ ": command not found\n".toList), .ret 1, D⟩ := by
    intro c hb hr
    rw [handleInput_external env c paths D hb]
    simp only [Exec, hr, Bool.false_eq_true, if_false]
  have ho := handleInput_outcome env c paths D
  refine ⟨ho, ?_, fun line => (mainIteration_ok env paths D line).1, hext c, ?_⟩
  · rcases ho with h | h | h | h | h <;> rw [h] <;> decide
  · intro line hb hr
    rw [(mainIteration_ok env paths D line).1, hext _ hb hr]

/-- C18 at the line `foo bar` when running `foo` fails: the pass prints the prompt and the
one line `foo: command not found`. -/
theorem C18_never_not_found_witness :
    (mainIteration (envOf [] (.ok [])) ["/bin".toList] "/app".toList
      (.ok "foo bar\n".toList)).stdout = "$ foo: command not found\n".toList :=
  (C18_never_not_found (envOf [] (.ok [])) ⟨[], []⟩ ["/bin".toList] "/app".toList).2.2.2.2
    "foo bar\n".toList (by decide) (by decide)

end ShellGo
